import Mathlib

/-!
Verification of the Adelante invoice-factoring contracts against their
natural-language specification.

The three NEAR contracts under `src/contracts/` (invoice registry,
marketplace, escrow engine) are shallowly embedded:

* contract storage becomes a structure of association-list maps
  (`IterableMap`/`LookupMap` both behave as key-value maps here);
* each public method becomes a function `State → args → Except Err Outcome`;
  `Except.error` models an aborted call (`assert!`, `env::panic_str`,
  `.expect`): on NEAR a panicked function call has every one of its storage
  writes reverted, so a failed call never produces a post-state;
* outgoing cross-contract promises (`ft_transfer`, `mark_settled`, ...) are
  recorded as explicit effect lists;
* `u128`/`u64` quantities become `Nat`: the contracts only compare, copy and
  subtract-after-guard these quantities, and the per-call counter increments
  cannot overflow 64 bits, so no wrap-around is observable;
* `env::block_timestamp_ms()` becomes an explicit `now : Nat` argument;
  `env::predecessor_account_id()` becomes an explicit caller argument.
-/

deriving instance DecidableEq for Except

namespace Store

/-- Lookup in an association-list map (first matching key wins). -/
def get {κ α : Type} [DecidableEq κ] : List (κ × α) → κ → Option α
  | [], _ => none
  | (k', v) :: rest, k => if k = k' then some v else get rest k

/-- Insert-or-replace, as NEAR's `IterableMap::insert` / `LookupMap::insert`. -/
def insert {κ α : Type} [DecidableEq κ] : List (κ × α) → κ → α → List (κ × α)
  | [], k, v => [(k, v)]
  | (k', v') :: rest, k, v =>
    if k = k' then (k, v) :: rest else (k', v') :: insert rest k v

/-- Key removal, as NEAR's `IterableMap::remove` / `LookupMap::remove`. -/
def remove {κ α : Type} [DecidableEq κ] : List (κ × α) → κ → List (κ × α)
  | [], _ => []
  | (k', v') :: rest, k =>
    if k = k' then remove rest k else (k', v') :: remove rest k

theorem get_insert {κ α : Type} [DecidableEq κ] (s : List (κ × α)) (k k' : κ) (v : α) :
    get (insert s k v) k' = if k' = k then some v else get s k' := by
  induction s with
  | nil => by_cases h : k' = k <;> simp [get, insert, h]
  | cons hd tl ih =>
    obtain ⟨k₀, v₀⟩ := hd
    by_cases h0 : k = k₀
    · subst h0
      by_cases h1 : k' = k <;> simp [get, insert, h1]
    · by_cases h1 : k' = k₀
      · have h2 : ¬ k' = k := fun h2 => h0 (h2.symm.trans h1)
        have h3 : ¬ k₀ = k := fun h3 => h0 h3.symm
        simp [get, insert, h0, h1, h2, h3]
      · simp [get, insert, h0, h1, ih]

theorem get_insert_self {κ α : Type} [DecidableEq κ] (s : List (κ × α)) (k : κ) (v : α) :
    get (insert s k v) k = some v := by
  simp [get_insert]

theorem get_insert_ne {κ α : Type} [DecidableEq κ] (s : List (κ × α)) {k k' : κ} (v : α)
    (h : k' ≠ k) : get (insert s k v) k' = get s k' := by
  simp [get_insert, h]

theorem get_remove {κ α : Type} [DecidableEq κ] (s : List (κ × α)) (k k' : κ) :
    get (remove s k) k' = if k' = k then none else get s k' := by
  induction s with
  | nil => by_cases h : k' = k <;> simp [get, remove, h]
  | cons hd tl ih =>
    obtain ⟨k₀, v₀⟩ := hd
    by_cases h0 : k = k₀
    · subst h0
      by_cases h1 : k' = k
      · subst h1
        simp [get, remove, ih]
      · simp [get, remove, h1, ih]
    · by_cases h1 : k' = k₀
      · have h2 : ¬ k' = k := fun h2 => h0 (h2.symm.trans h1)
        have h3 : ¬ k₀ = k := fun h3 => h0 h3.symm
        simp [get, remove, h0, h1, h2, h3]
      · simp [get, remove, h0, h1, ih]

theorem get_remove_self {κ α : Type} [DecidableEq κ] (s : List (κ × α)) (k : κ) :
    get (remove s k) k = none := by
  simp [get_remove]

theorem get_remove_ne {κ α : Type} [DecidableEq κ] (s : List (κ × α)) {k k' : κ}
    (h : k' ≠ k) : get (remove s k) k' = get s k' := by
  simp [get_remove, h]

theorem get_insert_cases {κ α : Type} [DecidableEq κ] {s : List (κ × α)} {k k' : κ}
    {v v' : α} (h : get (insert s k v) k' = some v') :
    (k' = k ∧ v' = v) ∨ (k' ≠ k ∧ get s k' = some v') := by
  rw [get_insert] at h
  by_cases hk : k' = k
  · rw [if_pos hk] at h
    exact Or.inl ⟨hk, (Option.some.inj h).symm⟩
  · rw [if_neg hk] at h
    exact Or.inr ⟨hk, h⟩

theorem get_remove_cases {κ α : Type} [DecidableEq κ] {s : List (κ × α)} {k k' : κ}
    {v' : α} (h : get (remove s k) k' = some v') : k' ≠ k ∧ get s k' = some v' := by
  rw [get_remove] at h
  by_cases hk : k' = k
  · rw [if_pos hk] at h
    exact absurd h (by simp)
  · rw [if_neg hk] at h
    exact ⟨hk, h⟩

theorem insert_get_self {κ α : Type} [DecidableEq κ] {s : List (κ × α)} {k : κ} {v : α}
    (h : get s k = some v) : insert s k v = s := by
  induction s with
  | nil => simp [get] at h
  | cons hd tl ih =>
    obtain ⟨k₀, v₀⟩ := hd
    by_cases h0 : k = k₀
    · simp [get, h0] at h
      simp [insert, h0, h]
    · simp [get, h0] at h
      simp [insert, h0, ih h]

end Store

/-- Decimal rendering zero-padded to width 6, as Rust's `format!("{:06}", n)`
used by all three contracts for their `INV-`/`LST-`/`BID-`/`ESC-` ids. -/
def zeroPad6 (n : Nat) : String :=
  let s := Nat.repr n
  if s.length < 6 then (String.mk (List.replicate (6 - s.length) '0')) ++ s else s
theorem toDigitsCore_eq_digits (fuel : Nat) : ∀ (n : Nat) (ds : List Char), n < fuel → n ≠ 0 →
    Nat.toDigitsCore 10 fuel n ds = ((Nat.digits 10 n).map Nat.digitChar).reverse ++ ds := by
  induction fuel with
  | zero => intro n ds h; omega
  | succ f ih =>
    intro n ds hfuel hn
    simp only [Nat.toDigitsCore]
    by_cases h10 : n / 10 = 0
    · rw [if_pos h10]
      have hlt : n < 10 := (Nat.div_eq_zero_iff (by norm_num)).mp h10
      rw [Nat.digits_of_lt 10 n hn hlt]
      simp [Nat.mod_eq_of_lt hlt]
    · rw [if_neg h10]
      have hdiv : n / 10 < n := Nat.div_lt_self (Nat.pos_of_ne_zero hn) (by norm_num)
      rw [ih (n / 10) _ (by omega) h10]
      rw [Nat.digits_def' (by norm_num : (1:Nat) < 10) (Nat.pos_of_ne_zero hn)]
      simp

theorem repr_data_eq (n : Nat) (hn : n ≠ 0) :
    (Nat.repr n).data = ((Nat.digits 10 n).map Nat.digitChar).reverse := by
  show (Nat.toDigits 10 n).asString.data = _
  rw [Nat.toDigits, toDigitsCore_eq_digits (n+1) n [] (Nat.lt_succ_self n) hn, List.append_nil]
  rfl

theorem repr_zero_data : (Nat.repr 0).data = ['0'] := rfl

def digitVal (c : Char) : Nat := c.toNat - 48

theorem digitVal_digitChar {d : Nat} (hd : d < 10) : digitVal (Nat.digitChar d) = d := by
  interval_cases d <;> rfl

theorem map_digitChar_inj {l1 l2 : List Nat} (h1 : ∀ x ∈ l1, x < 10) (h2 : ∀ x ∈ l2, x < 10)
    (h : l1.map Nat.digitChar = l2.map Nat.digitChar) : l1 = l2 := by
  have e1 : l1.map (fun x => digitVal (Nat.digitChar x)) = l1 := by
    rw [List.map_congr_left (fun x hx => digitVal_digitChar (h1 x hx))]
    exact List.map_id l1
  have e2 : l2.map (fun x => digitVal (Nat.digitChar x)) = l2 := by
    rw [List.map_congr_left (fun x hx => digitVal_digitChar (h2 x hx))]
    exact List.map_id l2
  calc l1 = l1.map (fun x => digitVal (Nat.digitChar x)) := e1.symm
    _ = l2.map (fun x => digitVal (Nat.digitChar x)) := by
        rw [show (fun x => digitVal (Nat.digitChar x)) = digitVal ∘ Nat.digitChar from rfl,
          ← List.map_map, h, List.map_map]
    _ = l2 := e2

theorem repr_data_inj {m n : Nat} (h : (Nat.repr m).data = (Nat.repr n).data) : m = n := by
  by_cases hm : m = 0 <;> by_cases hn : n = 0
  · rw [hm, hn]
  · exfalso
    rw [hm, repr_zero_data, repr_data_eq n hn] at h
    have h2 : (Nat.digits 10 n).map Nat.digitChar = ['0'] := by
      have := congrArg List.reverse h
      simpa using this.symm
    have h3 : Nat.digits 10 n = [0] :=
      map_digitChar_inj (fun x hx => Nat.digits_lt_base (by norm_num) hx)
        (by intro x hx; simp at hx; omega) h2
    have h4 := Nat.ofDigits_digits 10 n
    rw [h3] at h4
    simp [Nat.ofDigits] at h4
    exact hn h4.symm
  · exfalso
    rw [hn, repr_zero_data, repr_data_eq m hm] at h
    have h2 : (Nat.digits 10 m).map Nat.digitChar = ['0'] := by
      have := congrArg List.reverse h
      simpa using this
    have h3 : Nat.digits 10 m = [0] :=
      map_digitChar_inj (fun x hx => Nat.digits_lt_base (by norm_num) hx)
        (by intro x hx; simp at hx; omega) h2
    have h4 := Nat.ofDigits_digits 10 m
    rw [h3] at h4
    simp [Nat.ofDigits] at h4
    exact hm h4.symm
  · rw [repr_data_eq m hm, repr_data_eq n hn] at h
    have h2 := congrArg List.reverse h
    rw [List.reverse_reverse, List.reverse_reverse] at h2
    exact Nat.digits.injective 10
      (map_digitChar_inj (fun x hx => Nat.digits_lt_base (by norm_num) hx)
        (fun x hx => Nat.digits_lt_base (by norm_num) hx) h2)

def lzCount : List Char → Nat
  | [] => 0
  | c :: t => if c = '0' then lzCount t + 1 else 0

theorem lzCount_replicate_append (k : Nat) (l : List Char) :
    lzCount (List.replicate k '0' ++ l) = k + lzCount l := by
  induction k with
  | zero => simp
  | succ k ih => simp [List.replicate_succ, lzCount, ih]; omega

theorem digitChar_ne_zero {d : Nat} (h1 : d ≠ 0) (h2 : d < 10) : Nat.digitChar d ≠ '0' := by
  interval_cases d
  · exact absurd rfl h1
  all_goals decide

theorem lzCount_repr_data (n : Nat) (hn : n ≠ 0) : lzCount (Nat.repr n).data = 0 := by
  rw [repr_data_eq n hn]
  have hne : Nat.digits 10 n ≠ [] := Nat.digits_ne_nil_iff_ne_zero.mpr hn
  have hds := List.dropLast_append_getLast hne
  set d := (Nat.digits 10 n).getLast hne with hdd
  rw [← hds, List.map_append, List.reverse_append]
  have hd0 : d ≠ 0 := Nat.getLast_digit_ne_zero 10 hn
  have hdlt : d < 10 := Nat.digits_lt_base (by norm_num)
    (hdd ▸ List.getLast_mem hne)
  simp only [List.map_cons, List.map_nil, List.reverse_cons, List.reverse_nil,
    List.nil_append, List.cons_append]
  simp [lzCount, digitChar_ne_zero hd0 hdlt]

theorem string_length_data (s : String) : s.length = s.data.length := rfl

theorem repr_length_pos (n : Nat) : 1 ≤ (Nat.repr n).length := by
  by_cases hn : n = 0
  · rw [hn]
    decide
  · rw [string_length_data, repr_data_eq n hn]
    have hne : Nat.digits 10 n ≠ [] := Nat.digits_ne_nil_iff_ne_zero.mpr hn
    simp [List.length_reverse, List.length_map]
    exact List.length_pos.mpr hne

theorem zeroPad6_data (n : Nat) :
    (zeroPad6 n).data = List.replicate (6 - (Nat.repr n).length) '0' ++ (Nat.repr n).data := by
  unfold zeroPad6
  by_cases h : (Nat.repr n).length < 6
  · rw [if_pos h]
    rfl
  · rw [if_neg h]
    have h6 : 6 - (Nat.repr n).length = 0 := by omega
    rw [h6]
    simp

theorem lzCount_zeroPad6 (n : Nat) :
    lzCount (zeroPad6 n).data = (6 - (Nat.repr n).length) + lzCount (Nat.repr n).data := by
  rw [zeroPad6_data, lzCount_replicate_append]

theorem zeroPad6_inj {a b : Nat} (h : (zeroPad6 a).data = (zeroPad6 b).data) : a = b := by
  have hlz := congrArg lzCount h
  rw [lzCount_zeroPad6, lzCount_zeroPad6] at hlz
  have hlen := congrArg List.length h
  rw [zeroPad6_data, zeroPad6_data] at hlen
  simp only [List.length_append, List.length_replicate] at hlen
  rw [← string_length_data, ← string_length_data] at hlen
  have hpa := repr_length_pos a
  have hpb := repr_length_pos b
  by_cases ha : a = 0 <;> by_cases hb : b = 0
  · rw [ha, hb]
  · exfalso
    rw [ha] at hlz
    rw [show lzCount (Nat.repr 0).data = 1 from rfl, lzCount_repr_data b hb] at hlz
    have : (Nat.repr 0).length = 1 := rfl
    rw [this] at hlz
    omega
  · exfalso
    rw [hb] at hlz
    rw [show lzCount (Nat.repr 0).data = 1 from rfl, lzCount_repr_data a ha] at hlz
    have : (Nat.repr 0).length = 1 := rfl
    rw [this] at hlz
    omega
  · rw [lzCount_repr_data a ha, lzCount_repr_data b hb] at hlz
    have hleq : (Nat.repr a).length = (Nat.repr b).length := by omega
    rw [zeroPad6_data, zeroPad6_data, hleq] at h
    exact repr_data_inj (List.append_cancel_left h)

def mkListingId (k : Nat) : String := "LST-" ++ zeroPad6 k

theorem mkListingId_inj {a b : Nat} (h : mkListingId a = mkListingId b) : a = b := by
  have hd := congrArg String.data h
  have e1 : (mkListingId a).data = ("LST-").data ++ (zeroPad6 a).data := rfl
  have e2 : (mkListingId b).data = ("LST-").data ++ (zeroPad6 b).data := rfl
  rw [e1, e2] at hd
  exact zeroPad6_inj (List.append_cancel_left hd)

/-- Splitting a character list at every occurrence of a separator, as Rust's
`str::split(sep)` (empty segments are kept, and the empty input yields one
empty segment). -/
def splitOnChar (sep : Char) : List Char → List (List Char)
  | [] => [[]]
  | c :: rest =>
    if c = sep then [] :: splitOnChar sep rest
    else
      match splitOnChar sep rest with
      | [] => [[c]]
      | l :: ls => (c :: l) :: ls

/-- Rust's `msg.split(':').collect::<Vec<_>>()`. -/
def splitColon (s : String) : List String :=
  (splitOnChar ':' s.data).map String.mk

/-- Account names reused by the concrete evaluation states below. -/
def acctInvoice : String := "invoice.testnet"

def acctMarketplace : String := "marketplace.testnet"

def acctUsdc : String := "usdc.testnet"

def acctAdmin : String := "admin.testnet"

def acctSeller : String := "seller.testnet"

def acctBuyer : String := "buyer.testnet"

def acctStranger : String := "stranger.testnet"

def invId1 : String := "INV-000001"

def invId999 : String := "INV-000999"

def acctEscrow : String := "escrow.testnet"

def lstId1 : String := "LST-000001"

def escrowId1 : String := "ESC-000001"

namespace Escrow

/-- Escrow status, from `contracts/escrow/src/lib.rs`. -/
inductive EscrowStatus
  | active
  | released
  | disputed
  | refunded
deriving DecidableEq

/-- Escrow entry, from `contracts/escrow/src/lib.rs`. -/
structure EscrowEntry where
  id : String
  invoice_id : String
  seller : String
  buyer : String
  sale_amount : Nat
  invoice_amount : Nat
  created_at : Nat
  due_date : Nat
  status : EscrowStatus
  settled_at : Option Nat
  dispute_reason : Option String
  funds_deposited : Bool
deriving DecidableEq

/-- The escrow contract's storage. -/
structure EscrowState where
  escrows : List (String × EscrowEntry)
  escrows_by_invoice : List (String × String)
  escrows_by_buyer : List (String × List String)
  escrows_by_seller : List (String × List String)
  escrow_count : Nat
  invoice_contract : String
  marketplace_contract : String
  usdc_contract : String
  admin : String
deriving DecidableEq

/-- Abort causes of the escrow contract's methods (each is an `assert!` or
`.expect` panic message in the source). -/
inductive EscErr
  | onlyUsdcToken
  | onlyMarketplaceSender
  | insufficientDeposit
  | unauthorized
  | escrowNotFound
  | escrowAlreadyExists
  | escrowNotActive
  | escrowNotDisputed
  | invalidWinner
  | noFundsDeposited
  | disputeReasonRequired
  | notOverdue
deriving DecidableEq

/-- Outgoing cross-contract calls issued by an escrow method. -/
inductive EscEffect
  | ftTransfer (receiver_id : String) (amount : Nat) (memo : String)
  | markSettled (invoice_id : String)
deriving DecidableEq

/-- Tag of a fund-custody deposit message, `escrow_deposit:INV-xxxxxx`. -/
def strEscrowDeposit : String := "escrow_deposit"

/-- Memo attached to the settlement payout. -/
def settlement_memo (escrow_id : String) : String := "settlement:" ++ escrow_id

/-- Memo attached to the dispute-resolution payout. -/
def dispute_resolution_memo (escrow_id : String) : String :=
  "dispute_resolution:" ++ escrow_id

/-- Auto-generated reason recorded by `mark_overdue`. -/
def auto_dispute_reason (due_date : Nat) : String :=
  "Auto-dispute: Payment overdue since " ++ Nat.repr due_date

/-- `EscrowContract::new`. -/
def newEscrowContract (invoice_contract marketplace_contract usdc_contract admin : String) :
    EscrowState :=
  { escrows := [], escrows_by_invoice := [], escrows_by_buyer := [],
    escrows_by_seller := [], escrow_count := 0,
    invoice_contract := invoice_contract, marketplace_contract := marketplace_contract,
    usdc_contract := usdc_contract, admin := admin }

/-- `EscrowContract::ft_on_transfer`: NEP-141 callback crediting a deposit to
the escrow tagged in the message. Returns the new state and the
amount-to-return (the unused part of the transfer, always 0 here). -/
def ft_on_transfer (st : EscrowState) (token_contract sender_id : String)
    (amount : Nat) (msg : String) : Except EscErr (EscrowState × Nat) :=
  if token_contract ≠ st.usdc_contract then .error .onlyUsdcToken
  else if sender_id ≠ st.marketplace_contract then .error .onlyMarketplaceSender
  else
    match splitColon msg with
    | tag :: invoice_id :: _ =>
      if tag = strEscrowDeposit then
        match Store.get st.escrows_by_invoice invoice_id with
        | some escrow_id =>
          match Store.get st.escrows escrow_id with
          | some escrow =>
            if amount < escrow.sale_amount then .error .insufficientDeposit
            else
              let escrow' := { escrow with funds_deposited := true }
              .ok ({ st with escrows := Store.insert st.escrows escrow_id escrow' }, 0)
          | none => .ok (st, 0)
        | none => .ok (st, 0)
      else .ok (st, 0)
    | _ => .ok (st, 0)

/-- `EscrowContract::create_escrow` (marketplace or admin only). -/
def create_escrow (st : EscrowState) (caller invoice_id seller buyer : String)
    (sale_amount invoice_amount due_date now : Nat) :
    Except EscErr (EscrowState × String) :=
  if ¬ (caller = st.marketplace_contract ∨ caller = st.admin) then .error .unauthorized
  else if (Store.get st.escrows_by_invoice invoice_id).isSome then .error .escrowAlreadyExists
  else
    let count := st.escrow_count + 1
    let id := "ESC-" ++ zeroPad6 count
    let entry : EscrowEntry :=
      { id := id, invoice_id := invoice_id, seller := seller, buyer := buyer,
        sale_amount := sale_amount, invoice_amount := invoice_amount,
        created_at := now, due_date := due_date, status := .active,
        settled_at := none, dispute_reason := none, funds_deposited := false }
    let buyer_escrows := ((Store.get st.escrows_by_buyer buyer).getD []) ++ [id]
    let seller_escrows := ((Store.get st.escrows_by_seller seller).getD []) ++ [id]
    .ok ({ st with
        escrows := Store.insert st.escrows id entry,
        escrows_by_invoice := Store.insert st.escrows_by_invoice invoice_id id,
        escrows_by_buyer := Store.insert st.escrows_by_buyer buyer buyer_escrows,
        escrows_by_seller := Store.insert st.escrows_by_seller seller seller_escrows,
        escrow_count := count }, id)

/-- `EscrowContract::settle`: release the escrowed sale amount to the buyer
and notify the invoice registry. -/
def settle (st : EscrowState) (caller escrow_id : String) (now : Nat) :
    Except EscErr (EscrowState × List EscEffect) :=
  match Store.get st.escrows escrow_id with
  | none => .error .escrowNotFound
  | some entry =>
    if entry.status ≠ .active then .error .escrowNotActive
    else if ¬ (caller = entry.seller ∨ caller = entry.buyer ∨ caller = st.admin) then
      .error .unauthorized
    else if entry.funds_deposited = false then .error .noFundsDeposited
    else
      let entry' := { entry with status := EscrowStatus.released, settled_at := some now }
      .ok ({ st with escrows := Store.insert st.escrows escrow_id entry' },
        [.ftTransfer entry.buyer entry.sale_amount (settlement_memo escrow_id),
         .markSettled entry.invoice_id])

/-- `EscrowContract::simulate_debtor_payment`: demo stand-in that delegates to
`settle` after re-checking existence and Active status. -/
def simulate_debtor_payment (st : EscrowState) (caller escrow_id : String) (now : Nat) :
    Except EscErr (EscrowState × List EscEffect) :=
  match Store.get st.escrows escrow_id with
  | none => .error .escrowNotFound
  | some entry =>
    if entry.status ≠ .active then .error .escrowNotActive
    else settle st caller escrow_id now

/-- `EscrowContract::open_dispute` (buyer or seller, non-empty reason). -/
def open_dispute (st : EscrowState) (caller escrow_id reason : String) :
    Except EscErr EscrowState :=
  match Store.get st.escrows escrow_id with
  | none => .error .escrowNotFound
  | some entry =>
    if entry.status ≠ .active then .error .escrowNotActive
    else if ¬ (caller = entry.buyer ∨ caller = entry.seller) then .error .unauthorized
    else if reason = "" then .error .disputeReasonRequired
    else
      let entry' := { entry with status := EscrowStatus.disputed, dispute_reason := some reason }
      .ok { st with escrows := Store.insert st.escrows escrow_id entry' }

/-- `EscrowContract::resolve_dispute` (admin only): pays the winner and, when
the seller wins, notifies the invoice registry. -/
def resolve_dispute (st : EscrowState) (caller escrow_id winner : String) (now : Nat) :
    Except EscErr (EscrowState × List EscEffect) :=
  if caller ≠ st.admin then .error .unauthorized
  else
    match Store.get st.escrows escrow_id with
    | none => .error .escrowNotFound
    | some entry =>
      if entry.status ≠ .disputed then .error .escrowNotDisputed
      else if ¬ (winner = entry.buyer ∨ winner = entry.seller) then .error .invalidWinner
      else if entry.funds_deposited = false then .error .noFundsDeposited
      else if winner = entry.buyer then
        let entry' := { entry with status := EscrowStatus.refunded, settled_at := some now }
        .ok ({ st with escrows := Store.insert st.escrows escrow_id entry' },
          [.ftTransfer entry.buyer entry.sale_amount (dispute_resolution_memo escrow_id)])
      else
        let entry' := { entry with status := EscrowStatus.released, settled_at := some now }
        .ok ({ st with escrows := Store.insert st.escrows escrow_id entry' },
          [.ftTransfer entry.seller entry.sale_amount (dispute_resolution_memo escrow_id),
           .markSettled entry.invoice_id])

/-- `EscrowContract::mark_overdue`: auto-open a dispute on an overdue Active
escrow; delegates to `open_dispute` with the same transaction caller. -/
def mark_overdue (st : EscrowState) (caller escrow_id : String) (now : Nat) :
    Except EscErr EscrowState :=
  match Store.get st.escrows escrow_id with
  | none => .error .escrowNotFound
  | some entry =>
    if entry.status ≠ .active then .error .escrowNotActive
    else if ¬ (entry.due_date < now) then .error .notOverdue
    else open_dispute st caller escrow_id (auto_dispute_reason entry.due_date)

/-- `EscrowContract::set_admin` (admin only). -/
def set_admin (st : EscrowState) (caller new_admin : String) : Except EscErr EscrowState :=
  if caller ≠ st.admin then .error .unauthorized
  else .ok { st with admin := new_admin }

/-- `EscrowContract::set_contract_addresses` (admin only). -/
def set_contract_addresses (st : EscrowState) (caller : String)
    (invoice_contract marketplace_contract usdc_contract : Option String) :
    Except EscErr EscrowState :=
  if caller ≠ st.admin then .error .unauthorized
  else
    let st := match invoice_contract with
      | some a => { st with invoice_contract := a }
      | none => st
    let st := match marketplace_contract with
      | some a => { st with marketplace_contract := a }
      | none => st
    let st := match usdc_contract with
      | some a => { st with usdc_contract := a }
      | none => st
    .ok st

/-- Every state-mutating entry point of the escrow contract, with the caller,
timestamp and arguments it receives. -/
inductive EscrowOp
  | ftOnTransfer (token_contract sender_id : String) (amount : Nat) (msg : String)
  | createEscrow (caller invoice_id seller buyer : String)
      (sale_amount invoice_amount due_date now : Nat)
  | settleOp (caller escrow_id : String) (now : Nat)
  | simulatePayment (caller escrow_id : String) (now : Nat)
  | openDispute (caller escrow_id reason : String)
  | resolveDispute (caller escrow_id winner : String) (now : Nat)
  | markOverdue (caller escrow_id : String) (now : Nat)
  | setAdmin (caller new_admin : String)
  | setAddresses (caller : String) (invoice_contract marketplace_contract usdc_contract : Option String)
deriving DecidableEq

/-- One step of the escrow contract: the state reached by a successful call of
any public mutating method. -/
def escrow_step (st : EscrowState) : EscrowOp → Except EscErr EscrowState
  | .ftOnTransfer t s a m => (ft_on_transfer st t s a m).map Prod.fst
  | .createEscrow c i se bu sa ia dd now => (create_escrow st c i se bu sa ia dd now).map Prod.fst
  | .settleOp c e now => (settle st c e now).map Prod.fst
  | .simulatePayment c e now => (simulate_debtor_payment st c e now).map Prod.fst
  | .openDispute c e r => open_dispute st c e r
  | .resolveDispute c e w now => (resolve_dispute st c e w now).map Prod.fst
  | .markOverdue c e now => mark_overdue st c e now
  | .setAdmin c a => set_admin st c a
  | .setAddresses c i m u => set_contract_addresses st c i m u

theorem map_fst_ok {ε α β : Type} {x : Except ε (α × β)} {a : α}
    (h : Except.map Prod.fst x = .ok a) : ∃ b, x = .ok (a, b) := by
  cases x with
  | error e => simp [Except.map] at h
  | ok p =>
    simp only [Except.map, Except.ok.injEq] at h
    exact ⟨p.2, by rw [← h]⟩

/-- Successful `settle` calls: the touched entry was Active with funds
deposited, and only its status and settlement timestamp change. -/
theorem settle_shape {st : EscrowState} {caller escrow_id : String} {now : Nat}
    {st' : EscrowState} {eff : List EscEffect}
    (h : settle st caller escrow_id now = .ok (st', eff)) :
    ∃ e0, Store.get st.escrows escrow_id = some e0 ∧ e0.status = .active ∧
      e0.funds_deposited = true ∧
      st'.escrows = Store.insert st.escrows escrow_id
        { e0 with status := EscrowStatus.released, settled_at := some now } := by
  unfold settle at h
  split at h
  · exact absurd h (by simp)
  next e0 hget =>
    split at h
    · exact absurd h (by simp)
    next hact =>
      split at h
      · exact absurd h (by simp)
      split at h
      · exact absurd h (by simp)
      next hfunds =>
        simp only [Except.ok.injEq, Prod.mk.injEq] at h
        refine ⟨e0, hget, by simpa using hact, by simpa using hfunds, ?_⟩
        rw [← h.1]

/-- Successful `open_dispute` calls: the touched entry was Active and only its
status and dispute reason change. -/
theorem open_dispute_shape {st : EscrowState} {caller escrow_id reason : String}
    {st' : EscrowState}
    (h : open_dispute st caller escrow_id reason = .ok st') :
    ∃ e0, Store.get st.escrows escrow_id = some e0 ∧ e0.status = .active ∧
      st'.escrows = Store.insert st.escrows escrow_id
        { e0 with status := EscrowStatus.disputed, dispute_reason := some reason } := by
  unfold open_dispute at h
  split at h
  · exact absurd h (by simp)
  next e0 hget =>
    split at h
    · exact absurd h (by simp)
    next hact =>
      split at h
      · exact absurd h (by simp)
      split at h
      · exact absurd h (by simp)
      simp only [Except.ok.injEq] at h
      refine ⟨e0, hget, by simpa using hact, ?_⟩
      rw [← h]

/-- Successful `resolve_dispute` calls: the touched entry was Disputed with
funds deposited, and only its status and settlement timestamp change. -/
theorem resolve_dispute_shape {st : EscrowState} {caller escrow_id winner : String}
    {now : Nat} {st' : EscrowState} {eff : List EscEffect}
    (h : resolve_dispute st caller escrow_id winner now = .ok (st', eff)) :
    ∃ e0, Store.get st.escrows escrow_id = some e0 ∧ e0.status = .disputed ∧
      e0.funds_deposited = true ∧
      ((st'.escrows = Store.insert st.escrows escrow_id
          { e0 with status := EscrowStatus.refunded, settled_at := some now }) ∨
       (st'.escrows = Store.insert st.escrows escrow_id
          { e0 with status := EscrowStatus.released, settled_at := some now })) := by
  unfold resolve_dispute at h
  split at h
  · exact absurd h (by simp)
  split at h
  · exact absurd h (by simp)
  next e0 hget =>
    split at h
    · exact absurd h (by simp)
    next hdisp =>
      split at h
      · exact absurd h (by simp)
      split at h
      · exact absurd h (by simp)
      next hfunds =>
        split at h <;>
          (simp only [Except.ok.injEq, Prod.mk.injEq] at h)
        · exact ⟨e0, hget, by simpa using hdisp, by simpa using hfunds, Or.inl (by rw [← h.1])⟩
        · exact ⟨e0, hget, by simpa using hdisp, by simpa using hfunds, Or.inr (by rw [← h.1])⟩

/-- Shape of the escrow map after any successful step: it is unchanged, or a
single entry is written, and a written entry is Active (fresh creation),
Disputed (dispute opening), or overwrites an existing entry while either
keeping its status or having had funds deposited. -/
theorem escrow_step_escrows_shape (st : EscrowState) (op : EscrowOp) (st' : EscrowState)
    (h : escrow_step st op = .ok st') :
    st'.escrows = st.escrows ∨
    ∃ kid e1, st'.escrows = Store.insert st.escrows kid e1 ∧
      (e1.status = .active ∨ e1.status = .disputed ∨
        ∃ e0, Store.get st.escrows kid = some e0 ∧
          (e1.status = e0.status ∨ e0.funds_deposited = true)) := by
  cases op with
  | ftOnTransfer t s a m =>
    obtain ⟨r, hr⟩ := map_fst_ok h
    unfold ft_on_transfer at hr
    split at hr
    · exact absurd hr (by simp)
    split at hr
    · exact absurd hr (by simp)
    split at hr
    next tag invoice_id rest =>
      split at hr
      · split at hr
        · split at hr
          next escrow hget =>
            split at hr
            · exact absurd hr (by simp)
            · simp only [Except.ok.injEq, Prod.mk.injEq] at hr
              obtain ⟨h1, -⟩ := hr
              subst h1
              exact Or.inr ⟨_, _, rfl, Or.inr (Or.inr ⟨escrow, hget, Or.inl rfl⟩)⟩
          · simp only [Except.ok.injEq, Prod.mk.injEq] at hr
            exact Or.inl (by rw [← hr.1])
        · simp only [Except.ok.injEq, Prod.mk.injEq] at hr
          exact Or.inl (by rw [← hr.1])
      · simp only [Except.ok.injEq, Prod.mk.injEq] at hr
        exact Or.inl (by rw [← hr.1])
    · simp only [Except.ok.injEq, Prod.mk.injEq] at hr
      exact Or.inl (by rw [← hr.1])
  | createEscrow c i se bu sa ia dd now =>
    obtain ⟨r, hr⟩ := map_fst_ok h
    unfold create_escrow at hr
    split at hr
    · exact absurd hr (by simp)
    split at hr
    · exact absurd hr (by simp)
    simp only [Except.ok.injEq, Prod.mk.injEq] at hr
    exact Or.inr ⟨_, _, by rw [← hr.1], Or.inl rfl⟩
  | settleOp c e now =>
    obtain ⟨r, hr⟩ := map_fst_ok h
    obtain ⟨e0, _, _, hfunds, hesc⟩ := settle_shape hr
    exact Or.inr ⟨_, _, hesc, Or.inr (Or.inr ⟨e0, by assumption, Or.inr hfunds⟩)⟩
  | simulatePayment c e now =>
    obtain ⟨r, hr⟩ := map_fst_ok h
    unfold simulate_debtor_payment at hr
    split at hr
    · exact absurd hr (by simp)
    split at hr
    · exact absurd hr (by simp)
    obtain ⟨e0, _, _, hfunds, hesc⟩ := settle_shape hr
    exact Or.inr ⟨_, _, hesc, Or.inr (Or.inr ⟨e0, by assumption, Or.inr hfunds⟩)⟩
  | openDispute c e rsn =>
    obtain ⟨e0, _, _, hesc⟩ := open_dispute_shape h
    exact Or.inr ⟨_, _, hesc, Or.inr (Or.inl rfl)⟩
  | resolveDispute c e w now =>
    obtain ⟨r, hr⟩ := map_fst_ok h
    obtain ⟨e0, hget, _, hfunds, hesc | hesc⟩ := resolve_dispute_shape hr
    · exact Or.inr ⟨_, _, hesc, Or.inr (Or.inr ⟨e0, hget, Or.inr hfunds⟩)⟩
    · exact Or.inr ⟨_, _, hesc, Or.inr (Or.inr ⟨e0, hget, Or.inr hfunds⟩)⟩
  | markOverdue c e now =>
    replace h : mark_overdue st c e now = Except.ok st' := h
    unfold mark_overdue at h
    split at h
    · exact absurd h (by simp)
    split at h
    · exact absurd h (by simp)
    split at h
    · exact absurd h (by simp)
    obtain ⟨e0, _, _, hesc⟩ := open_dispute_shape h
    exact Or.inr ⟨_, _, hesc, Or.inr (Or.inl rfl)⟩
  | setAdmin c a =>
    replace h : set_admin st c a = Except.ok st' := h
    unfold set_admin at h
    split at h
    · exact absurd h (by simp)
    simp only [Except.ok.injEq] at h
    exact Or.inl (by rw [← h])
  | setAddresses c i m u =>
    replace h : set_contract_addresses st c i m u = Except.ok st' := h
    unfold set_contract_addresses at h
    split at h
    · exact absurd h (by simp)
    simp only [Except.ok.injEq] at h
    refine Or.inl ?_
    rw [← h]
    cases i <;> cases m <;> cases u <;> rfl

/-- C1: for every escrow and every successful transition of the escrow engine
(any public mutating entry point), an escrow whose post-state status is
Released or Refunded either already had that status before the step, or had
`funds_deposited = true` at the moment of the transition; in particular the
only operations that newly set a terminal status (`settle` and
`resolve_dispute`) require the funds-deposited flag, and no other operation
sets either terminal status. -/
theorem c1_terminal_status_requires_funds (st : EscrowState) (op : EscrowOp)
    (st' : EscrowState) (hstep : escrow_step st op = .ok st')
    (k : String) (e' : EscrowEntry) (hget : Store.get st'.escrows k = some e')
    (hterm : e'.status = .released ∨ e'.status = .refunded) :
    ∃ e, Store.get st.escrows k = some e ∧
      (e.status = e'.status ∨ e.funds_deposited = true) := by
  rcases escrow_step_escrows_shape st op st' hstep with hsame | ⟨kid, e1, heq, hcase⟩
  · rw [hsame] at hget
    exact ⟨e', hget, Or.inl rfl⟩
  · rw [heq, Store.get_insert] at hget
    by_cases hk : k = kid
    · rw [if_pos hk] at hget
      obtain rfl : e1 = e' := Option.some.injEq _ _ ▸ hget
      rcases hcase with hact | hdisp | ⟨e0, hget0, hrel⟩
      · rcases hterm with ht | ht <;> rw [ht] at hact <;> exact absurd hact (by simp)
      · rcases hterm with ht | ht <;> rw [ht] at hdisp <;> exact absurd hdisp (by simp)
      · refine ⟨e0, by rw [hk]; exact hget0, ?_⟩
        rcases hrel with hrel | hrel
        · exact Or.inl hrel.symm
        · exact Or.inr hrel
    · rw [if_neg hk] at hget
      exact ⟨e', hget, Or.inl rfl⟩

/-- Sample dispute reason used by concrete evaluation states. -/
def wReason : String := "late payment"

/-- Concrete escrow entry: a funded, disputed escrow. -/
def wC1entry : EscrowEntry :=
  { id := escrowId1, invoice_id := invId1, seller := acctSeller, buyer := acctBuyer,
    sale_amount := 100, invoice_amount := 120, created_at := 0, due_date := 50,
    status := .disputed, settled_at := none, dispute_reason := some (wReason),
    funds_deposited := true }

/-- Concrete escrow contract state holding `wC1entry`. -/
def wC1st : EscrowState :=
  { escrows := [(escrowId1, wC1entry)], escrows_by_invoice := [(invId1, escrowId1)],
    escrows_by_buyer := [(acctBuyer, [escrowId1])],
    escrows_by_seller := [(acctSeller, [escrowId1])], escrow_count := 1,
    invoice_contract := acctInvoice, marketplace_contract := acctMarketplace,
    usdc_contract := acctUsdc, admin := acctAdmin }

/-- `wC1entry` after the dispute is resolved for the buyer at time 77. -/
def wC1entry' : EscrowEntry :=
  { wC1entry with status := EscrowStatus.refunded, settled_at := some 77 }

/-- `wC1st` after that resolution step. -/
def wC1st' : EscrowState :=
  { wC1st with escrows := Store.insert wC1st.escrows escrowId1 wC1entry' }

theorem c1_witness :
    ∃ e, Store.get wC1st.escrows escrowId1 = some e ∧
      (e.status = wC1entry'.status ∨ e.funds_deposited = true) :=
  c1_terminal_status_requires_funds wC1st
    (EscrowOp.resolveDispute acctAdmin escrowId1 acctBuyer 77) wC1st'
    (by decide) escrowId1 wC1entry' (by decide) (by decide)

/-- State of the escrow contract after `resolve_dispute` rewrites the entry
to a terminal status with a settlement timestamp. -/
def resolvedState (st : EscrowState) (escrow_id : String) (entry : EscrowEntry)
    (stat : EscrowStatus) (now : Nat) : EscrowState :=
  let entry' := { entry with status := stat, settled_at := some now }
  { st with escrows := Store.insert st.escrows escrow_id entry' }

/-- C5: on a Disputed, funded escrow, the admin resolving for the buyer sets
Refunded, pays the sale amount to the buyer and does not notify the invoice
registry; resolving for the seller sets Released, pays the sale amount to the
seller and notifies the invoice registry to mark the invoice settled; both
outcomes record the settlement timestamp. -/
theorem c5_resolve_dispute_outcomes (st : EscrowState) (escrow_id winner : String)
    (entry : EscrowEntry) (now : Nat)
    (hget : Store.get st.escrows escrow_id = some entry)
    (hst : entry.status = .disputed)
    (hfunds : entry.funds_deposited = true) :
    (winner = entry.buyer →
      resolve_dispute st st.admin escrow_id winner now =
        .ok (resolvedState st escrow_id entry .refunded now,
          [.ftTransfer entry.buyer entry.sale_amount (dispute_resolution_memo escrow_id)])) ∧
    (winner = entry.seller → winner ≠ entry.buyer →
      resolve_dispute st st.admin escrow_id winner now =
        .ok (resolvedState st escrow_id entry .released now,
          [.ftTransfer entry.seller entry.sale_amount (dispute_resolution_memo escrow_id),
           .markSettled entry.invoice_id])) := by
  constructor
  · intro hw
    simp [resolve_dispute, hget, hst, hfunds, hw, resolvedState]
  · intro hw hnb
    have h4 : ¬ entry.seller = entry.buyer := fun he => hnb (hw.trans he)
    simp [resolve_dispute, hget, hst, hfunds, hw, hnb, h4, resolvedState]

theorem c5_witness :
    resolve_dispute wC1st wC1st.admin escrowId1 acctBuyer 77 =
      .ok (resolvedState wC1st escrowId1 wC1entry .refunded 77,
        [.ftTransfer wC1entry.buyer wC1entry.sale_amount
          (dispute_resolution_memo escrowId1)]) :=
  (c5_resolve_dispute_outcomes wC1st escrowId1 acctBuyer wC1entry 77
    (by decide) (by decide) (by decide)).1 (by decide)

/-- C6: receiving a fund-custody deposit notification is idempotent on escrow
state: a successful `ft_on_transfer` applied a second time with the same
arguments returns the same state and the same amount-to-return, so a
duplicate delivery leaves every escrow record exactly as it was. -/
theorem c6_deposit_idempotent (st : EscrowState) (token_contract sender_id : String)
    (amount : Nat) (msg : String) (st₁ : EscrowState) (ret : Nat)
    (h : ft_on_transfer st token_contract sender_id amount msg = .ok (st₁, ret)) :
    ft_on_transfer st₁ token_contract sender_id amount msg = .ok (st₁, ret) := by
  have h0 := h
  unfold ft_on_transfer at h
  split at h
  · exact absurd h (by simp)
  next htok =>
    split at h
    · exact absurd h (by simp)
    next hsender =>
      split at h
      next tag invoice_id rest heq =>
        split at h
        next htag =>
          split at h
          next escrow_id hlook =>
            split at h
            next escrow hgete =>
              split at h
              · exact absurd h (by simp)
              next hamt =>
                simp only [Except.ok.injEq, Prod.mk.injEq] at h
                obtain ⟨hst1, hret⟩ := h
                subst hst1
                subst hret
                have hself : Store.get
                    (Store.insert st.escrows escrow_id { escrow with funds_deposited := true })
                    escrow_id = some { escrow with funds_deposited := true } :=
                  Store.get_insert_self _ _ _
                have hins : Store.insert
                    (Store.insert st.escrows escrow_id { escrow with funds_deposited := true })
                    escrow_id { escrow with funds_deposited := true } =
                    Store.insert st.escrows escrow_id { escrow with funds_deposited := true } :=
                  Store.insert_get_self hself
                simp [ft_on_transfer, heq, htag, hlook, hself, hins, htok, hsender, hamt]
            next hgete =>
              simp only [Except.ok.injEq, Prod.mk.injEq] at h
              obtain ⟨h1, h2⟩ := h
              subst h1
              subst h2
              exact h0
          next hlook =>
            simp only [Except.ok.injEq, Prod.mk.injEq] at h
            obtain ⟨h1, h2⟩ := h
            subst h1
            subst h2
            exact h0
        next htag =>
          simp only [Except.ok.injEq, Prod.mk.injEq] at h
          obtain ⟨h1, h2⟩ := h
          subst h1
          subst h2
          exact h0
      next heq =>
        simp only [Except.ok.injEq, Prod.mk.injEq] at h
        obtain ⟨h1, h2⟩ := h
        subst h1
        subst h2
        exact h0

/-- Message crediting the deposit for invoice `INV-000001`. -/
def msgDeposit1 : String := "escrow_deposit:INV-000001"

/-- Message tagged with an invoice id that matches no escrow. -/
def msgDeposit999 : String := "escrow_deposit:INV-000999"

theorem c6_witness :
    ft_on_transfer wC1st acctUsdc acctMarketplace 100 msgDeposit1 = .ok (wC1st, 0) :=
  c6_deposit_idempotent wC1st acctUsdc acctMarketplace 100 msgDeposit1 wC1st 0 (by decide)

/-- An Active, not yet funded escrow entry for `INV-000001`. -/
def wC2entry : EscrowEntry :=
  { wC1entry with status := EscrowStatus.active, settled_at := none, dispute_reason := none, funds_deposited := false }

/-- Escrow contract state holding the unfunded `wC2entry`. -/
def wC2st : EscrowState :=
  { wC1st with escrows := [(escrowId1, wC2entry)] }

/-- C2 fails on the code: a deposit notification matching an escrow but with
an amount below the escrow's sale amount (50 < 100) aborts with the
`Insufficient deposit amount` assertion instead of completing as a no-op. -/
theorem c2_counterexample :
    ft_on_transfer wC2st acctUsdc acctMarketplace 50 msgDeposit1 =
      .error EscErr.insufficientDeposit := by decide

/-- C2 as amended: a deposit notification whose tagged invoice id matches no
escrow (no lookup entry, or a dangling lookup entry) completes as a no-op
refusal of credit — the state is unchanged, the call succeeds and all tokens
are kept (amount-to-return 0); but when an escrow matches and the amount is
below its sale amount the call fails (the panic reverts it), rather than
completing as a no-op. -/
theorem c2_amended_deposit_paths (st : EscrowState) (amount : Nat)
    (msg invoice_id : String) (rest : List String)
    (hmsg : splitColon msg = strEscrowDeposit :: invoice_id :: rest) :
    (Store.get st.escrows_by_invoice invoice_id = none →
      ft_on_transfer st st.usdc_contract st.marketplace_contract amount msg = .ok (st, 0)) ∧
    (∀ escrow_id, Store.get st.escrows_by_invoice invoice_id = some escrow_id →
      Store.get st.escrows escrow_id = none →
      ft_on_transfer st st.usdc_contract st.marketplace_contract amount msg = .ok (st, 0)) ∧
    (∀ escrow_id escrow, Store.get st.escrows_by_invoice invoice_id = some escrow_id →
      Store.get st.escrows escrow_id = some escrow → amount < escrow.sale_amount →
      ft_on_transfer st st.usdc_contract st.marketplace_contract amount msg =
        .error EscErr.insufficientDeposit) := by
  refine ⟨fun hnone => ?_, fun escrow_id hsome hnone => ?_,
    fun escrow_id escrow hsome hgete hlt => ?_⟩
  · simp [ft_on_transfer, hmsg, hnone]
  · simp [ft_on_transfer, hmsg, hsome, hnone]
  · simp [ft_on_transfer, hmsg, hsome, hgete, hlt]

theorem c2_witness :
    ft_on_transfer wC1st wC1st.usdc_contract wC1st.marketplace_contract 5 msgDeposit999 =
      .ok (wC1st, 0) :=
  (c2_amended_deposit_paths wC1st 5 msgDeposit999 invId999 [] (by decide)).1 (by decide)

/-- C4 fails on the code: for a notification matching no escrow the returned
amount-to-return is 0 — all 5 transferred tokens are kept — not the full
transferred amount. -/
theorem c4_counterexample :
    ft_on_transfer wC2st acctUsdc acctMarketplace 5 msgDeposit999 = .ok (wC2st, 0) ∧
      (5 : Nat) ≠ 0 := by decide

/-- C4 as amended: a fund-custody notification that cannot be matched to an
escrow is not treated as an error — the call succeeds with no state change —
but its returned amount-to-return is 0, so the contract keeps (sweeps) the
full transferred amount instead of returning it to the sender. -/
theorem c4_amended_unmatched_keeps_tokens (st : EscrowState) (amount : Nat)
    (msg invoice_id : String) (rest : List String)
    (hmsg : splitColon msg = strEscrowDeposit :: invoice_id :: rest)
    (hnone : Store.get st.escrows_by_invoice invoice_id = none) :
    ft_on_transfer st st.usdc_contract st.marketplace_contract amount msg = .ok (st, 0) := by
  simp [ft_on_transfer, hmsg, hnone]

theorem c4_witness :
    ft_on_transfer wC2st wC2st.usdc_contract wC2st.marketplace_contract 7 msgDeposit999 =
      .ok (wC2st, 0) :=
  c4_amended_unmatched_keeps_tokens wC2st 7 msgDeposit999 invId999 [] (by decide) (by decide)

/-- State of the escrow contract after `open_dispute` records a dispute. -/
def disputedState (st : EscrowState) (escrow_id : String) (entry : EscrowEntry)
    (reason : String) : EscrowState :=
  let entry' := { entry with status := EscrowStatus.disputed, dispute_reason := some reason }
  { st with escrows := Store.insert st.escrows escrow_id entry' }

theorem auto_dispute_reason_ne_empty (d : Nat) : auto_dispute_reason d ≠ "" := by
  unfold auto_dispute_reason
  intro h
  have h1 := congrArg String.length h
  rw [String.length_append] at h1
  have h2 : ("Auto-dispute: Payment overdue since ").length = 36 := rfl
  have h3 : ("" : String).length = 0 := rfl
  rw [h2, h3] at h1
  omega

/-- An Active escrow that is overdue at time 20 (due date 10). -/
def wC7entry : EscrowEntry :=
  { wC1entry with status := EscrowStatus.active, settled_at := none, dispute_reason := none, due_date := 10 }

/-- Escrow contract state holding `wC7entry`. -/
def wC7st : EscrowState :=
  { wC1st with escrows := [(escrowId1, wC7entry)] }

/-- C7 fails on the code: `mark_overdue` on an overdue Active escrow called by
an account that is neither buyer nor seller aborts with the
`Only buyer or seller can open dispute` assertion inherited from
`open_dispute`, so it does not succeed for every caller. -/
theorem c7_counterexample :
    mark_overdue wC7st acctStranger escrowId1 20 = .error EscErr.unauthorized := by decide

/-- C7 as amended: `mark_overdue` checks only status=Active and current time
past the due date itself, but it delegates to `open_dispute` with the same
transaction caller, so it additionally requires caller ∈ {buyer, seller}; for
those callers it transitions the escrow to Disputed with the auto-generated
overdue reason recorded, and for any other caller it fails. -/
theorem c7_amended_mark_overdue (st : EscrowState) (caller escrow_id : String)
    (entry : EscrowEntry) (now : Nat)
    (hget : Store.get st.escrows escrow_id = some entry)
    (hact : entry.status = .active)
    (hover : entry.due_date < now) :
    (caller = entry.buyer ∨ caller = entry.seller →
      mark_overdue st caller escrow_id now =
        .ok (disputedState st escrow_id entry (auto_dispute_reason entry.due_date))) ∧
    (¬ (caller = entry.buyer ∨ caller = entry.seller) →
      mark_overdue st caller escrow_id now = .error EscErr.unauthorized) := by
  have hne := auto_dispute_reason_ne_empty entry.due_date
  constructor <;> intro hc <;>
    simp [mark_overdue, open_dispute, hget, hact, hover, hc, hne, disputedState]

theorem c7_witness :
    mark_overdue wC7st acctBuyer escrowId1 20 =
      .ok (disputedState wC7st escrowId1 wC7entry (auto_dispute_reason wC7entry.due_date)) :=
  (c7_amended_mark_overdue wC7st acctBuyer escrowId1 wC7entry 20
    (by decide) (by decide) (by decide)).1 (by decide)

end Escrow

namespace InvoiceReg

/-- Invoice status enum, from `contracts/invoice/src/lib.rs`. -/
inductive InvoiceStatus
  | draft
  | listed
  | sold
  | settled
  | disputed
  | cancelled
deriving DecidableEq

/-- Invoice record, from `contracts/invoice/src/lib.rs`. -/
structure Invoice where
  id : String
  creator : String
  owner : String
  amount : Nat
  currency : String
  debtor_name : String
  debtor_email : Option String
  description : String
  due_date : Nat
  created_at : Nat
  documents_hash : String
  status : InvoiceStatus
  risk_score : Nat
deriving DecidableEq

/-- The invoice registry contract's storage. -/
structure InvoiceState where
  invoices : List (String × Invoice)
  invoices_by_creator : List (String × List String)
  invoices_by_owner : List (String × List String)
  invoice_count : Nat
  marketplace_contract : String
  escrow_contract : String
deriving DecidableEq

/-- The spec's error kinds for the invoice registry (each abort in the source
is an `assert!` or `.expect` panic classified by its message). -/
inductive InvErr
  | authorizationError
  | notFoundError
  | invalidStateError
deriving DecidableEq

/-- `InvoiceContract::transfer_invoice` (marketplace only, Listed→Sold,
updates the owner and the per-owner indexes). -/
def transfer_invoice (st : InvoiceState) (caller invoice_id new_owner : String) :
    Except InvErr InvoiceState :=
  if caller ≠ st.marketplace_contract then .error .authorizationError
  else
    match Store.get st.invoices invoice_id with
    | none => .error .notFoundError
    | some invoice =>
      if invoice.status ≠ .listed then .error .invalidStateError
      else
        let old_owner := invoice.owner
        let invoice' := { invoice with owner := new_owner, status := InvoiceStatus.sold }
        let owners1 :=
          match Store.get st.invoices_by_owner old_owner with
          | some l =>
            Store.insert st.invoices_by_owner old_owner (l.filter (fun i => i ≠ invoice_id))
          | none => st.invoices_by_owner
        let new_list := ((Store.get owners1 new_owner).getD []) ++ [invoice_id]
        let owners2 := Store.insert owners1 new_owner new_list
        .ok { st with invoices := Store.insert st.invoices invoice_id invoice',
                      invoices_by_owner := owners2 }

/-- `InvoiceContract::mark_settled` (escrow or marketplace, Sold→Settled). -/
def mark_settled (st : InvoiceState) (caller invoice_id : String) :
    Except InvErr InvoiceState :=
  if ¬ (caller = st.escrow_contract ∨ caller = st.marketplace_contract) then
    .error .authorizationError
  else
    match Store.get st.invoices invoice_id with
    | none => .error .notFoundError
    | some invoice =>
      if invoice.status ≠ .sold then .error .invalidStateError
      else
        let invoice' := { invoice with status := InvoiceStatus.settled }
        .ok { st with invoices := Store.insert st.invoices invoice_id invoice' }

/-- `InvoiceContract::set_listed` (owner or marketplace, Draft→Listed). -/
def set_listed (st : InvoiceState) (caller invoice_id : String) :
    Except InvErr InvoiceState :=
  match Store.get st.invoices invoice_id with
  | none => .error .notFoundError
  | some invoice =>
    if ¬ (invoice.owner = caller ∨ caller = st.marketplace_contract) then
      .error .authorizationError
    else if invoice.status ≠ .draft then .error .invalidStateError
    else
      let invoice' := { invoice with status := InvoiceStatus.listed }
      .ok { st with invoices := Store.insert st.invoices invoice_id invoice' }

/-- `InvoiceContract::cancel_invoice` (owner only, Draft→Cancelled). -/
def cancel_invoice (st : InvoiceState) (caller invoice_id : String) :
    Except InvErr InvoiceState :=
  match Store.get st.invoices invoice_id with
  | none => .error .notFoundError
  | some invoice =>
    if invoice.owner ≠ caller then .error .authorizationError
    else if invoice.status ≠ .draft then .error .invalidStateError
    else
      let invoice' := { invoice with status := InvoiceStatus.cancelled }
      .ok { st with invoices := Store.insert st.invoices invoice_id invoice' }

/-- `InvoiceContract::unlist_invoice` (owner or marketplace, Listed→Draft). -/
def unlist_invoice (st : InvoiceState) (caller invoice_id : String) :
    Except InvErr InvoiceState :=
  match Store.get st.invoices invoice_id with
  | none => .error .notFoundError
  | some invoice =>
    if ¬ (invoice.owner = caller ∨ caller = st.marketplace_contract) then
      .error .authorizationError
    else if invoice.status ≠ .listed then .error .invalidStateError
    else
      let invoice' := { invoice with status := InvoiceStatus.draft }
      .ok { st with invoices := Store.insert st.invoices invoice_id invoice' }

/-- `InvoiceContract::set_marketplace_contract`: the source has no caller
check (only a comment `In production, add proper admin check`), so the call
is total for every caller. -/
def set_marketplace_contract (st : InvoiceState) (caller marketplace_contract : String) :
    InvoiceState :=
  { st with marketplace_contract := marketplace_contract }

/-- `InvoiceContract::set_escrow_contract`: likewise entirely unguarded. -/
def set_escrow_contract (st : InvoiceState) (caller escrow_contract : String) :
    InvoiceState :=
  { st with escrow_contract := escrow_contract }

/-- The five status-mutating operations of the invoice registry named by the
spec's transition table. -/
inductive InvOp
  | transferInvoice (caller invoice_id new_owner : String)
  | markSettled (caller invoice_id : String)
  | setListed (caller invoice_id : String)
  | cancelInvoice (caller invoice_id : String)
  | unlistInvoice (caller invoice_id : String)
deriving DecidableEq

/-- Dispatch of the five status-mutating operations. -/
def inv_step (st : InvoiceState) : InvOp → Except InvErr InvoiceState
  | .transferInvoice c i o => transfer_invoice st c i o
  | .markSettled c i => mark_settled st c i
  | .setListed c i => set_listed st c i
  | .cancelInvoice c i => cancel_invoice st c i
  | .unlistInvoice c i => unlist_invoice st c i

/-- The invoice id an operation targets. -/
def opInvoiceId : InvOp → String
  | .transferInvoice _ i _ => i
  | .markSettled _ i => i
  | .setListed _ i => i
  | .cancelInvoice _ i => i
  | .unlistInvoice _ i => i

/-- The status precondition of each operation per the spec's table. -/
def opRequiredStatus : InvOp → InvoiceStatus
  | .transferInvoice _ _ _ => .listed
  | .markSettled _ _ => .sold
  | .setListed _ _ => .draft
  | .cancelInvoice _ _ => .draft
  | .unlistInvoice _ _ => .listed

/-- The caller authorization of each operation per the spec's table. -/
def opCallerOk (st : InvoiceState) (invoice : Invoice) : InvOp → Prop
  | .transferInvoice c _ _ => c = st.marketplace_contract
  | .markSettled c _ => c = st.escrow_contract ∨ c = st.marketplace_contract
  | .setListed c _ => invoice.owner = c ∨ c = st.marketplace_contract
  | .cancelInvoice c _ => invoice.owner = c
  | .unlistInvoice c _ => invoice.owner = c ∨ c = st.marketplace_contract

/-- The status transition edges of the spec's table in section 4.1. -/
def allowedEdge (a b : InvoiceStatus) : Prop :=
  (a = .draft ∧ b = .listed) ∨ (a = .listed ∧ b = .draft) ∨
  (a = .listed ∧ b = .sold) ∨ (a = .sold ∧ b = .settled) ∨
  (a = .draft ∧ b = .cancelled)

/-- C8: every successful status-mutating operation of the invoice registry
changes an invoice's status only along the section 4.1 table edges (or leaves
it unchanged), and an operation invoked on an existing invoice by an
authorized caller when the invoice's status violates the operation's
precondition fails with the invalid-state error; a failed call has no
post-state, so the record is left entirely unchanged. -/
theorem c8_status_transitions (st : InvoiceState) (op : InvOp) :
    (∀ st', inv_step st op = .ok st' →
      ∀ id inv', Store.get st'.invoices id = some inv' →
        ∃ inv, Store.get st.invoices id = some inv ∧
          (inv'.status = inv.status ∨ allowedEdge inv.status inv'.status)) ∧
    (∀ invoice, Store.get st.invoices (opInvoiceId op) = some invoice →
      opCallerOk st invoice op → invoice.status ≠ opRequiredStatus op →
      inv_step st op = .error .invalidStateError) := by
  cases op with
  | transferInvoice c i o =>
    constructor
    · intro st' h id inv' hget
      replace h : transfer_invoice st c i o = Except.ok st' := h
      unfold transfer_invoice at h
      split at h
      · exact absurd h (by simp)
      split at h
      · exact absurd h (by simp)
      next invoice hgi =>
        split at h
        · exact absurd h (by simp)
        next hstat =>
          rw [not_ne_iff] at hstat
          simp only [Except.ok.injEq] at h
          have hv : st'.invoices = Store.insert st.invoices i
              { invoice with owner := o, status := InvoiceStatus.sold } := by rw [← h]
          rw [hv] at hget
          rcases Store.get_insert_cases hget with ⟨hid, hvv⟩ | ⟨-, hold⟩
          · subst hid
            subst hvv
            exact ⟨invoice, hgi, Or.inr (Or.inr (Or.inr (Or.inl ⟨hstat, rfl⟩)))⟩
          · exact ⟨inv', hold, Or.inl rfl⟩
    · intro invoice hgi hcall hst
      replace hcall : c = st.marketplace_contract := hcall
      replace hst : invoice.status ≠ InvoiceStatus.listed := hst
      replace hgi : Store.get st.invoices i = some invoice := hgi
      simp [inv_step, transfer_invoice, hcall, hgi, hst]
  | markSettled c i =>
    constructor
    · intro st' h id inv' hget
      replace h : mark_settled st c i = Except.ok st' := h
      unfold mark_settled at h
      split at h
      · exact absurd h (by simp)
      split at h
      · exact absurd h (by simp)
      next invoice hgi =>
        split at h
        · exact absurd h (by simp)
        next hstat =>
          rw [not_ne_iff] at hstat
          simp only [Except.ok.injEq] at h
          have hv : st'.invoices = Store.insert st.invoices i
              { invoice with status := InvoiceStatus.settled } := by rw [← h]
          rw [hv] at hget
          rcases Store.get_insert_cases hget with ⟨hid, hvv⟩ | ⟨-, hold⟩
          · subst hid
            subst hvv
            exact ⟨invoice, hgi, Or.inr (Or.inr (Or.inr (Or.inr (Or.inl ⟨hstat, rfl⟩))))⟩
          · exact ⟨inv', hold, Or.inl rfl⟩
    · intro invoice hgi hcall hst
      replace hcall : c = st.escrow_contract ∨ c = st.marketplace_contract := hcall
      replace hst : invoice.status ≠ InvoiceStatus.sold := hst
      replace hgi : Store.get st.invoices i = some invoice := hgi
      simp [inv_step, mark_settled, hcall, hgi, hst]
  | setListed c i =>
    constructor
    · intro st' h id inv' hget
      replace h : set_listed st c i = Except.ok st' := h
      unfold set_listed at h
      split at h
      · exact absurd h (by simp)
      next invoice hgi =>
        split at h
        · exact absurd h (by simp)
        split at h
        · exact absurd h (by simp)
        next hstat =>
          rw [not_ne_iff] at hstat
          simp only [Except.ok.injEq] at h
          have hv : st'.invoices = Store.insert st.invoices i
              { invoice with status := InvoiceStatus.listed } := by rw [← h]
          rw [hv] at hget
          rcases Store.get_insert_cases hget with ⟨hid, hvv⟩ | ⟨-, hold⟩
          · subst hid
            subst hvv
            exact ⟨invoice, hgi, Or.inr (Or.inl ⟨hstat, rfl⟩)⟩
          · exact ⟨inv', hold, Or.inl rfl⟩
    · intro invoice hgi hcall hst
      replace hcall : invoice.owner = c ∨ c = st.marketplace_contract := hcall
      replace hst : invoice.status ≠ InvoiceStatus.draft := hst
      replace hgi : Store.get st.invoices i = some invoice := hgi
      simp [inv_step, set_listed, hcall, hgi, hst]
  | cancelInvoice c i =>
    constructor
    · intro st' h id inv' hget
      replace h : cancel_invoice st c i = Except.ok st' := h
      unfold cancel_invoice at h
      split at h
      · exact absurd h (by simp)
      next invoice hgi =>
        split at h
        · exact absurd h (by simp)
        split at h
        · exact absurd h (by simp)
        next hstat =>
          rw [not_ne_iff] at hstat
          simp only [Except.ok.injEq] at h
          have hv : st'.invoices = Store.insert st.invoices i
              { invoice with status := InvoiceStatus.cancelled } := by rw [← h]
          rw [hv] at hget
          rcases Store.get_insert_cases hget with ⟨hid, hvv⟩ | ⟨-, hold⟩
          · subst hid
            subst hvv
            exact ⟨invoice, hgi,
              Or.inr (Or.inr (Or.inr (Or.inr (Or.inr ⟨hstat, rfl⟩))))⟩
          · exact ⟨inv', hold, Or.inl rfl⟩
    · intro invoice hgi hcall hst
      replace hcall : invoice.owner = c := hcall
      replace hst : invoice.status ≠ InvoiceStatus.draft := hst
      replace hgi : Store.get st.invoices i = some invoice := hgi
      simp [inv_step, cancel_invoice, hcall, hgi, hst]
  | unlistInvoice c i =>
    constructor
    · intro st' h id inv' hget
      replace h : unlist_invoice st c i = Except.ok st' := h
      unfold unlist_invoice at h
      split at h
      · exact absurd h (by simp)
      next invoice hgi =>
        split at h
        · exact absurd h (by simp)
        split at h
        · exact absurd h (by simp)
        next hstat =>
          rw [not_ne_iff] at hstat
          simp only [Except.ok.injEq] at h
          have hv : st'.invoices = Store.insert st.invoices i
              { invoice with status := InvoiceStatus.draft } := by rw [← h]
          rw [hv] at hget
          rcases Store.get_insert_cases hget with ⟨hid, hvv⟩ | ⟨-, hold⟩
          · subst hid
            subst hvv
            exact ⟨invoice, hgi, Or.inr (Or.inr (Or.inl ⟨hstat, rfl⟩))⟩
          · exact ⟨inv', hold, Or.inl rfl⟩
    · intro invoice hgi hcall hst
      replace hcall : invoice.owner = c ∨ c = st.marketplace_contract := hcall
      replace hst : invoice.status ≠ InvoiceStatus.listed := hst
      replace hgi : Store.get st.invoices i = some invoice := hgi
      simp [inv_step, unlist_invoice, hcall, hgi, hst]

/-- A Sold invoice record used by the concrete evaluations. -/
def wInv : Invoice :=
  { id := invId1, creator := acctSeller, owner := acctSeller, amount := 2000000000,
    currency := "USDC", debtor_name := "Acme Corp", debtor_email := none,
    description := "500 widgets", due_date := 1000, created_at := 0,
    documents_hash := "QmXYZ123", status := .sold, risk_score := 20 }

/-- A registry state holding `wInv`. -/
def wInvSt : InvoiceState :=
  { invoices := [(invId1, wInv)], invoices_by_creator := [(acctSeller, [invId1])],
    invoices_by_owner := [(acctSeller, [invId1])], invoice_count := 1,
    marketplace_contract := acctMarketplace, escrow_contract := acctEscrow }

theorem c8_witness :
    inv_step wInvSt (InvOp.setListed acctSeller invId1) = .error InvErr.invalidStateError :=
  (c8_status_transitions wInvSt (InvOp.setListed acctSeller invId1)).2 wInv
    (by decide) (Or.inl (by decide)) (by decide)

/-- C10: `set_marketplace_contract` and `set_escrow_contract` perform no
caller check — they are total functions that, for every caller, replace the
stored trusted marketplace/escrow address; these stored addresses are exactly
the identities `transfer_invoice` and `mark_settled` authorize against, so
after any caller redirects them to an address, that address passes the
authorization gates (and for `transfer_invoice` no other caller does). -/
theorem c10_setters_unguarded (st : InvoiceState) (caller addr : String) :
    (set_marketplace_contract st caller addr).marketplace_contract = addr ∧
    (set_escrow_contract st caller addr).escrow_contract = addr ∧
    (∀ invoice_id new_owner c, c ≠ addr →
      transfer_invoice (set_marketplace_contract st caller addr) c invoice_id new_owner =
        .error .authorizationError) ∧
    (∀ invoice_id new_owner,
      transfer_invoice (set_marketplace_contract st caller addr) addr invoice_id new_owner ≠
        .error .authorizationError) ∧
    (∀ invoice_id,
      mark_settled (set_escrow_contract st caller addr) addr invoice_id ≠
        .error .authorizationError) := by
  refine ⟨rfl, rfl, ?_, ?_, ?_⟩
  · intro invoice_id new_owner c hc
    simp [transfer_invoice, set_marketplace_contract, hc]
  · intro invoice_id new_owner hcontra
    unfold transfer_invoice at hcontra
    rw [if_neg (by simp [set_marketplace_contract])] at hcontra
    split at hcontra
    · exact absurd hcontra (by simp)
    split at hcontra
    · exact absurd hcontra (by simp)
    · exact absurd hcontra (by simp)
  · intro invoice_id hcontra
    unfold mark_settled at hcontra
    rw [if_neg (by simp [set_escrow_contract])] at hcontra
    split at hcontra
    · exact absurd hcontra (by simp)
    split at hcontra
    · exact absurd hcontra (by simp)
    · exact absurd hcontra (by simp)

theorem c10_witness :
    transfer_invoice (set_marketplace_contract wInvSt acctStranger acctBuyer) acctMarketplace
      invId1 acctSeller = .error InvErr.authorizationError :=
  (c10_setters_unguarded wInvSt acctStranger acctBuyer).2.2.1 invId1 acctSeller
    acctMarketplace (by decide)

end InvoiceReg

namespace Marketplace

/-- Marketplace listing, from `contracts/marketplace/src/lib.rs`. -/
structure Listing where
  id : String
  invoice_id : String
  seller : String
  asking_price : Nat
  min_price : Option Nat
  invoice_amount : Nat
  due_date : Nat
  created_at : Nat
  expires_at : Option Nat
  active : Bool
deriving DecidableEq

/-- Bid on a listing, from `contracts/marketplace/src/lib.rs`. -/
structure Bid where
  id : String
  listing_id : String
  bidder : String
  amount : Nat
  created_at : Nat
  active : Bool
deriving DecidableEq

/-- The marketplace contract's storage. -/
structure MarketplaceState where
  listings : List (String × Listing)
  listings_by_invoice : List (String × String)
  bids : List (String × List Bid)
  listing_count : Nat
  bid_count : Nat
  invoice_contract : String
  escrow_contract : String
  usdc_contract : String
  fee_basis_points : Nat
  fee_recipient : String
deriving DecidableEq

/-- Abort causes of the marketplace's methods (each is an `assert!`,
`.expect` or `env::panic_str` in the source). -/
inductive MkErr
  | invalidAskingPrice
  | askExceedsAmount
  | invoiceAlreadyListed
  | onlyUsdcToken
  | invalidMessageFormat
  | biddingNotImplemented
  | unknownAction
  | listingNotFound
  | listingNotActive
  | ownListing
  | listingExpired
  | insufficientPayment
  | mustAttachPayment
  | onlySeller
  | noBids
  | bidNotFound
  | onlyBidder
  | bidNotActive
  | mustAttachDeposit
  | belowMinPrice
  | markListedFailed
  | feeTooHigh
deriving DecidableEq

/-- Outgoing cross-contract calls issued by a marketplace method. -/
inductive MkEffect
  | setListed (invoice_id : String)
  | ftTransfer (receiver_id : String) (amount : Nat) (memo : String)
  | transferInvoice (invoice_id new_owner : String)
  | createEscrow (invoice_id seller buyer : String)
      (sale_amount invoice_amount due_date : Nat)
  | unlistInvoice (invoice_id : String)
deriving DecidableEq

/-- `NearToken::from_millinear(1)` in yoctoNEAR, the minimal attached payment
`buy_invoice` and `place_bid` require. -/
def millinearYocto : Nat := 10 ^ 21

/-- Action tag of a purchase message, `buy_listing:LST-xxxxxx`. -/
def strBuyListing : String := "buy_listing"

/-- Action tag of the unimplemented USDC bidding path. -/
def strPlaceBid : String := "place_bid"

/-- Memo of the fund push into escrow custody. -/
def escrow_deposit_memo (invoice_id : String) : String :=
  "escrow_deposit:" ++ invoice_id

/-- `MarketplaceContract::new`. -/
def newMarketplaceContract (invoice_contract escrow_contract usdc_contract fee_recipient :
    String) : MarketplaceState :=
  { listings := [], listings_by_invoice := [], bids := [], listing_count := 0,
    bid_count := 0, invoice_contract := invoice_contract,
    escrow_contract := escrow_contract, usdc_contract := usdc_contract,
    fee_basis_points := 100, fee_recipient := fee_recipient }

/-- Whether a listing has expired at `now` (the source asserts
`now < expires_at` when an expiry is set). -/
def expired (expires_at : Option Nat) (now : Nat) : Bool :=
  match expires_at with
  | some e => decide (e ≤ now)
  | none => false

/-- `MarketplaceContract::list_invoice`: creates the listing and its
invoice lookup entry, then issues the remote `set_listed` call whose result
`on_list_callback` will observe. -/
def list_invoice (st : MarketplaceState) (seller invoice_id : String)
    (asking_price invoice_amount due_date : Nat)
    (min_price expires_at : Option Nat) (now : Nat) :
    Except MkErr (MarketplaceState × String × List MkEffect) :=
  if asking_price = 0 then .error .invalidAskingPrice
  else if invoice_amount < asking_price then .error .askExceedsAmount
  else if (Store.get st.listings_by_invoice invoice_id).isSome then .error .invoiceAlreadyListed
  else
    let count := st.listing_count + 1
    let id := mkListingId count
    let listing : Listing :=
      { id := id, invoice_id := invoice_id, seller := seller,
        asking_price := asking_price, min_price := min_price,
        invoice_amount := invoice_amount, due_date := due_date,
        created_at := now, expires_at := expires_at, active := true }
    .ok ({ st with
        listings := Store.insert st.listings id listing,
        listings_by_invoice := Store.insert st.listings_by_invoice invoice_id id,
        listing_count := count }, id, [.setListed invoice_id])

/-- Result of the remote `set_listed` call observed by `on_list_callback`. -/
inductive CallbackResult
  | success
  | failure
deriving DecidableEq

/-- The storage writes the failure branch of `on_list_callback` performs
before panicking: it deletes the listing and the lookup entry keyed by that
listing's invoice id. These writes never persist — the branch ends in
`env::panic_str`, and a panicked NEAR function call has all of its storage
writes reverted — but they are modelled here so the intended rollback can be
stated and examined. -/
def on_list_callback_failure_writes (st : MarketplaceState) (listing_id : String) :
    MarketplaceState :=
  match Store.get st.listings listing_id with
  | some listing =>
    { st with
        listings := Store.remove st.listings listing_id,
        listings_by_invoice := Store.remove st.listings_by_invoice listing.invoice_id }
  | none => st

/-- `MarketplaceContract::on_list_callback`: on success it confirms the
listing and changes nothing; on failure the source removes the listing and
its lookup entry and then calls `env::panic_str`, so the whole callback
receipt fails and those removals are reverted — the net on-chain effect is an
error with no state change. -/
def on_list_callback (st : MarketplaceState) (listing_id : String)
    (result : CallbackResult) : Except MkErr (MarketplaceState × String) :=
  match result with
  | .success => .ok (st, listing_id)
  | .failure => .error .markListedFailed

/-- `MarketplaceContract::process_usdc_purchase` (private; reached through
`ft_on_transfer`): deactivates the listing, removes its lookup entry, fires
the fund-push/ownership-transfer/escrow-create chain and returns the excess
payment as the amount-to-return. -/
def process_usdc_purchase (st : MarketplaceState) (buyer : String) (payment : Nat)
    (listing_id : String) (now : Nat) :
    Except MkErr (MarketplaceState × List MkEffect × Nat) :=
  match Store.get st.listings listing_id with
  | none => .error .listingNotFound
  | some listing =>
    if listing.active = false then .error .listingNotActive
    else if listing.seller = buyer then .error .ownListing
    else if expired listing.expires_at now then .error .listingExpired
    else if payment < listing.asking_price then .error .insufficientPayment
    else
      let excess := payment - listing.asking_price
      let updated := { listing with active := false }
      .ok ({ st with
          listings := Store.insert st.listings listing_id updated,
          listings_by_invoice := Store.remove st.listings_by_invoice listing.invoice_id },
        [.ftTransfer st.escrow_contract listing.asking_price
            (escrow_deposit_memo listing.invoice_id),
         .transferInvoice listing.invoice_id buyer,
         .createEscrow listing.invoice_id listing.seller buyer listing.asking_price
            listing.invoice_amount listing.due_date],
        excess)

/-- `MarketplaceContract::ft_on_transfer`: NEP-141 purchase notification. -/
def ft_on_transfer (st : MarketplaceState) (token_contract sender_id : String)
    (amount : Nat) (msg : String) (now : Nat) :
    Except MkErr (MarketplaceState × List MkEffect × Nat) :=
  if token_contract ≠ st.usdc_contract then .error .onlyUsdcToken
  else
    match splitColon msg with
    | action :: listing_id :: _ =>
      if action = strBuyListing then process_usdc_purchase st sender_id amount listing_id now
      else if action = strPlaceBid then .error .biddingNotImplemented
      else .error .unknownAction
    | _ => .error .invalidMessageFormat

/-- `MarketplaceContract::buy_invoice` (legacy direct-payment variant): the
payment is whatever NEAR deposit is attached, checked only against the
0.001 NEAR minimum — not against the asking price. -/
def buy_invoice (st : MarketplaceState) (buyer listing_id : String)
    (attached_deposit : Nat) (now : Nat) :
    Except MkErr (MarketplaceState × List MkEffect) :=
  match Store.get st.listings listing_id with
  | none => .error .listingNotFound
  | some listing =>
    if listing.active = false then .error .listingNotActive
    else if listing.seller = buyer then .error .ownListing
    else if expired listing.expires_at now then .error .listingExpired
    else if attached_deposit < millinearYocto then .error .mustAttachPayment
    else
      let updated := { listing with active := false }
      .ok ({ st with
          listings := Store.insert st.listings listing_id updated,
          listings_by_invoice := Store.remove st.listings_by_invoice listing.invoice_id },
        [.transferInvoice listing.invoice_id buyer,
         .createEscrow listing.invoice_id listing.seller buyer listing.asking_price
            listing.invoice_amount listing.due_date])

/-- `MarketplaceContract::cancel_listing` (seller only). -/
def cancel_listing (st : MarketplaceState) (caller listing_id : String) :
    Except MkErr (MarketplaceState × List MkEffect) :=
  match Store.get st.listings listing_id with
  | none => .error .listingNotFound
  | some listing =>
    if listing.seller ≠ caller then .error .onlySeller
    else if listing.active = false then .error .listingNotActive
    else
      let updated := { listing with active := false }
      .ok ({ st with
          listings := Store.insert st.listings listing_id updated,
          listings_by_invoice := Store.remove st.listings_by_invoice listing.invoice_id },
        [.unlistInvoice listing.invoice_id])

/-- Whether a bid amount is below the listing's optional minimum price. -/
def belowMin (min_price : Option Nat) (amount : Nat) : Bool :=
  match min_price with
  | some m => decide (amount < m)
  | none => false

/-- `MarketplaceContract::place_bid`. -/
def place_bid (st : MarketplaceState) (bidder listing_id : String)
    (amount attached_deposit now : Nat) :
    Except MkErr (MarketplaceState × String) :=
  match Store.get st.listings listing_id with
  | none => .error .listingNotFound
  | some listing =>
    if listing.active = false then .error .listingNotActive
    else if listing.seller = bidder then .error .ownListing
    else if belowMin listing.min_price amount then .error .belowMinPrice
    else if attached_deposit < millinearYocto then .error .mustAttachDeposit
    else
      let count := st.bid_count + 1
      let bid_id := "BID-" ++ zeroPad6 count
      let bid : Bid :=
        { id := bid_id, listing_id := listing_id, bidder := bidder,
          amount := amount, created_at := now, active := true }
      let listing_bids := ((Store.get st.bids listing_id).getD []) ++ [bid]
      .ok ({ st with
          bids := Store.insert st.bids listing_id listing_bids,
          bid_count := count }, bid_id)

/-- `MarketplaceContract::accept_bid` (seller only): deactivates the listing,
removes its lookup entry, deactivates every bid and runs the
ownership-transfer/escrow-create chain seeded with the accepted bid. -/
def accept_bid (st : MarketplaceState) (caller listing_id bid_id : String) :
    Except MkErr (MarketplaceState × List MkEffect) :=
  match Store.get st.listings listing_id with
  | none => .error .listingNotFound
  | some listing =>
    if listing.seller ≠ caller then .error .onlySeller
    else if listing.active = false then .error .listingNotActive
    else
      match Store.get st.bids listing_id with
      | none => .error .noBids
      | some bids =>
        match bids.find? (fun b => b.id == bid_id && b.active) with
        | none => .error .bidNotFound
        | some bid =>
          let updated := { listing with active := false }
          let updated_bids := bids.map (fun b => { b with active := false })
          .ok ({ st with
              listings := Store.insert st.listings listing_id updated,
              listings_by_invoice := Store.remove st.listings_by_invoice listing.invoice_id,
              bids := Store.insert st.bids listing_id updated_bids },
            [.transferInvoice listing.invoice_id bid.bidder,
             .createEscrow listing.invoice_id listing.seller bid.bidder bid.amount
                listing.invoice_amount listing.due_date])

/-- `MarketplaceContract::cancel_bid` (bidder only). -/
def cancel_bid (st : MarketplaceState) (caller listing_id bid_id : String) :
    Except MkErr MarketplaceState :=
  match Store.get st.bids listing_id with
  | none => .error .noBids
  | some bids =>
    match bids.findIdx? (fun b => b.id == bid_id) with
    | none => .error .bidNotFound
    | some idx =>
      match bids[idx]? with
      | none => .error .bidNotFound
      | some b =>
        if b.bidder ≠ caller then .error .onlyBidder
        else if b.active = false then .error .bidNotActive
        else
          .ok { st with bids :=
            Store.insert st.bids listing_id (bids.set idx { b with active := false }) }

/-- `MarketplaceContract::set_fee_basis_points`. -/
def set_fee_basis_points (st : MarketplaceState) (fee_basis_points : Nat) :
    Except MkErr MarketplaceState :=
  if 1000 < fee_basis_points then .error .feeTooHigh
  else .ok { st with fee_basis_points := fee_basis_points }

/-- Every state-mutating entry point of the marketplace contract
(`process_usdc_purchase` is private and only reachable through
`ft_on_transfer`). -/
inductive MarketplaceOp
  | listInvoice (seller invoice_id : String) (asking_price invoice_amount due_date : Nat)
      (min_price expires_at : Option Nat) (now : Nat)
  | onListCallback (listing_id : String) (result : CallbackResult)
  | ftOnTransfer (token_contract sender_id : String) (amount : Nat) (msg : String) (now : Nat)
  | buyInvoice (buyer listing_id : String) (attached_deposit now : Nat)
  | cancelListing (caller listing_id : String)
  | placeBid (bidder listing_id : String) (amount attached_deposit now : Nat)
  | acceptBid (caller listing_id bid_id : String)
  | cancelBid (caller listing_id bid_id : String)
  | setFeeBasisPoints (fee_basis_points : Nat)
deriving DecidableEq

/-- One step of the marketplace contract: the state reached by a successful
call of any public mutating method. -/
def mk_step (st : MarketplaceState) : MarketplaceOp → Except MkErr MarketplaceState
  | .listInvoice s i ap ia dd mp ea now => (list_invoice st s i ap ia dd mp ea now).map Prod.fst
  | .onListCallback l r => (on_list_callback st l r).map Prod.fst
  | .ftOnTransfer t s a m now => (ft_on_transfer st t s a m now).map Prod.fst
  | .buyInvoice b l d now => (buy_invoice st b l d now).map Prod.fst
  | .cancelListing c l => (cancel_listing st c l).map Prod.fst
  | .placeBid b l a d now => (place_bid st b l a d now).map Prod.fst
  | .acceptBid c l bi => (accept_bid st c l bi).map Prod.fst
  | .cancelBid c l bi => cancel_bid st c l bi
  | .setFeeBasisPoints f => set_fee_basis_points st f

/-- The marketplace states reachable from a freshly initialized contract. -/
inductive Reachable : MarketplaceState → Prop
  | init (invoice_contract escrow_contract usdc_contract fee_recipient : String) :
      Reachable (newMarketplaceContract invoice_contract escrow_contract
        usdc_contract fee_recipient)
  | step {st st' : MarketplaceState} (op : MarketplaceOp) :
      Reachable st → mk_step st op = .ok st' → Reachable st'

/-- Successful `list_invoice` calls: the invoice had no lookup entry, and a
fresh active listing keyed by the incremented counter is created together
with its lookup entry. -/
theorem list_invoice_shape {st : MarketplaceState} {seller invoice_id : String}
    {ap ia dd : Nat} {mp ea : Option Nat} {now : Nat} {st' : MarketplaceState}
    {out : String × List MkEffect}
    (h : list_invoice st seller invoice_id ap ia dd mp ea now = .ok (st', out)) :
    Store.get st.listings_by_invoice invoice_id = none ∧
    ∃ listing : Listing, listing.active = true ∧ listing.invoice_id = invoice_id ∧
      st'.listings = Store.insert st.listings (mkListingId (st.listing_count + 1)) listing ∧
      st'.listings_by_invoice =
        Store.insert st.listings_by_invoice invoice_id (mkListingId (st.listing_count + 1)) ∧
      st'.listing_count = st.listing_count + 1 := by
  unfold list_invoice at h
  split at h
  · exact absurd h (by simp)
  split at h
  · exact absurd h (by simp)
  split at h
  · exact absurd h (by simp)
  next hnone =>
    simp only [Except.ok.injEq, Prod.mk.injEq] at h
    refine ⟨Option.not_isSome_iff_eq_none.mp hnone,
      { id := mkListingId (st.listing_count + 1), invoice_id := invoice_id,
        seller := seller, asking_price := ap, min_price := mp, invoice_amount := ia,
        due_date := dd, created_at := now, expires_at := ea, active := true },
      rfl, rfl, ?_, ?_, ?_⟩ <;> rw [← h.1]

/-- Successful `process_usdc_purchase` calls: the listing existed and was
active; it is deactivated and its lookup entry removed; the counter is
unchanged. -/
theorem process_usdc_purchase_shape {st : MarketplaceState} {buyer : String}
    {payment : Nat} {listing_id : String} {now : Nat} {st' : MarketplaceState}
    {out : List MkEffect × Nat}
    (h : process_usdc_purchase st buyer payment listing_id now = .ok (st', out)) :
    ∃ listing, Store.get st.listings listing_id = some listing ∧ listing.active = true ∧
      st'.listings = Store.insert st.listings listing_id { listing with active := false } ∧
      st'.listings_by_invoice = Store.remove st.listings_by_invoice listing.invoice_id ∧
      st'.listing_count = st.listing_count := by
  unfold process_usdc_purchase at h
  split at h
  · exact absurd h (by simp)
  next listing hget =>
    split at h
    · exact absurd h (by simp)
    next hact =>
      split at h
      · exact absurd h (by simp)
      split at h
      · exact absurd h (by simp)
      split at h
      · exact absurd h (by simp)
      simp only [Except.ok.injEq, Prod.mk.injEq] at h
      refine ⟨listing, hget, by simpa using hact, ?_, ?_, ?_⟩ <;> rw [← h.1]

/-- Successful `buy_invoice` calls: same listing/lookup shape as the
fund-custody purchase path. -/
theorem buy_invoice_shape {st : MarketplaceState} {buyer listing_id : String}
    {attached_deposit now : Nat} {st' : MarketplaceState} {out : List MkEffect}
    (h : buy_invoice st buyer listing_id attached_deposit now = .ok (st', out)) :
    ∃ listing, Store.get st.listings listing_id = some listing ∧ listing.active = true ∧
      st'.listings = Store.insert st.listings listing_id { listing with active := false } ∧
      st'.listings_by_invoice = Store.remove st.listings_by_invoice listing.invoice_id ∧
      st'.listing_count = st.listing_count := by
  unfold buy_invoice at h
  split at h
  · exact absurd h (by simp)
  next listing hget =>
    split at h
    · exact absurd h (by simp)
    next hact =>
      split at h
      · exact absurd h (by simp)
      split at h
      · exact absurd h (by simp)
      split at h
      · exact absurd h (by simp)
      simp only [Except.ok.injEq, Prod.mk.injEq] at h
      refine ⟨listing, hget, by simpa using hact, ?_, ?_, ?_⟩ <;> rw [← h.1]

/-- Successful `cancel_listing` calls: same listing/lookup shape. -/
theorem cancel_listing_shape {st : MarketplaceState} {caller listing_id : String}
    {st' : MarketplaceState} {out : List MkEffect}
    (h : cancel_listing st caller listing_id = .ok (st', out)) :
    ∃ listing, Store.get st.listings listing_id = some listing ∧ listing.active = true ∧
      st'.listings = Store.insert st.listings listing_id { listing with active := false } ∧
      st'.listings_by_invoice = Store.remove st.listings_by_invoice listing.invoice_id ∧
      st'.listing_count = st.listing_count := by
  unfold cancel_listing at h
  split at h
  · exact absurd h (by simp)
  next listing hget =>
    split at h
    · exact absurd h (by simp)
    split at h
    · exact absurd h (by simp)
    next hact =>
      simp only [Except.ok.injEq, Prod.mk.injEq] at h
      refine ⟨listing, hget, by simpa using hact, ?_, ?_, ?_⟩ <;> rw [← h.1]

/-- Successful `accept_bid` calls: same listing/lookup shape (plus a bid-map
write that does not affect listings). -/
theorem accept_bid_shape {st : MarketplaceState} {caller listing_id bid_id : String}
    {st' : MarketplaceState} {out : List MkEffect}
    (h : accept_bid st caller listing_id bid_id = .ok (st', out)) :
    ∃ listing, Store.get st.listings listing_id = some listing ∧ listing.active = true ∧
      st'.listings = Store.insert st.listings listing_id { listing with active := false } ∧
      st'.listings_by_invoice = Store.remove st.listings_by_invoice listing.invoice_id ∧
      st'.listing_count = st.listing_count := by
  unfold accept_bid at h
  split at h
  · exact absurd h (by simp)
  next listing hget =>
    split at h
    · exact absurd h (by simp)
    split at h
    · exact absurd h (by simp)
    next hact =>
      split at h
      · exact absurd h (by simp)
      split at h
      · exact absurd h (by simp)
      simp only [Except.ok.injEq, Prod.mk.injEq] at h
      refine ⟨listing, hget, by simpa using hact, ?_, ?_, ?_⟩ <;> rw [← h.1]

/-- The listing/lookup coupling invariant: every lookup entry points to an
active listing of that invoice, every active listing has its lookup entry,
and every listing key was produced by the id counter. -/
def ListingInv (st : MarketplaceState) : Prop :=
  (∀ invoice_id listing_id, Store.get st.listings_by_invoice invoice_id = some listing_id →
    ∃ l, Store.get st.listings listing_id = some l ∧ l.active = true ∧
      l.invoice_id = invoice_id) ∧
  (∀ listing_id l, Store.get st.listings listing_id = some l → l.active = true →
    Store.get st.listings_by_invoice l.invoice_id = some listing_id) ∧
  (∀ listing_id l, Store.get st.listings listing_id = some l →
    ∃ k, 1 ≤ k ∧ k ≤ st.listing_count ∧ listing_id = mkListingId k)

/-- Deactivating an existing active listing and removing its lookup entry
preserves the invariant. -/
theorem deactivate_preserves {st : MarketplaceState} {listing_id : String}
    {listing : Listing} (hget : Store.get st.listings listing_id = some listing)
    (hact : listing.active = true)
    (hinv : ListingInv st) {st' : MarketplaceState}
    (hl : st'.listings = Store.insert st.listings listing_id { listing with active := false })
    (hbi : st'.listings_by_invoice = Store.remove st.listings_by_invoice listing.invoice_id)
    (hc : st'.listing_count = st.listing_count) : ListingInv st' := by
  obtain ⟨inv1, inv2, inv3⟩ := hinv
  refine ⟨?_, ?_, ?_⟩
  · intro inv' lid' hlook
    rw [hbi] at hlook
    obtain ⟨hne, hlook⟩ := Store.get_remove_cases hlook
    obtain ⟨l', hgl', hact', hinv'⟩ := inv1 inv' lid' hlook
    have hne2 : lid' ≠ listing_id := by
      intro he
      rw [he, hget] at hgl'
      obtain rfl : listing = l' := Option.some.inj hgl'
      exact hne (hinv' ▸ rfl)
    refine ⟨l', ?_, hact', hinv'⟩
    rw [hl, Store.get_insert_ne _ _ hne2]
    exact hgl'
  · intro lid' l' hgl' hact'
    rw [hl] at hgl'
    rcases Store.get_insert_cases hgl' with ⟨rfl, rfl⟩ | ⟨hne, hold⟩
    · simp at hact'
    · have hinv_ne : l'.invoice_id ≠ listing.invoice_id := by
        intro he
        have h1 := inv2 lid' l' hold hact'
        have h2 := inv2 listing_id listing hget hact
        rw [he] at h1
        exact hne (Option.some.inj (h1.symm.trans h2))
      rw [hbi, Store.get_remove_ne _ hinv_ne]
      exact inv2 lid' l' hold hact'
  · intro lid' l' hgl'
    rw [hl] at hgl'
    rw [hc]
    rcases Store.get_insert_cases hgl' with ⟨rfl, rfl⟩ | ⟨hne, hold⟩
    · exact inv3 _ listing hget
    · exact inv3 lid' l' hold

/-- Creating a fresh listing (guarded by the absent lookup entry) preserves
the invariant; the id-counter bound makes the new key fresh. -/
theorem list_preserves {st : MarketplaceState} {invoice_id : String} {listing : Listing}
    (hnone : Store.get st.listings_by_invoice invoice_id = none)
    (hact : listing.active = true) (hiv : listing.invoice_id = invoice_id)
    (hinv : ListingInv st) {st' : MarketplaceState}
    (hl : st'.listings = Store.insert st.listings (mkListingId (st.listing_count + 1)) listing)
    (hbi : st'.listings_by_invoice =
      Store.insert st.listings_by_invoice invoice_id (mkListingId (st.listing_count + 1)))
    (hc : st'.listing_count = st.listing_count + 1) : ListingInv st' := by
  obtain ⟨inv1, inv2, inv3⟩ := hinv
  have hfresh : Store.get st.listings (mkListingId (st.listing_count + 1)) = none := by
    cases hM : Store.get st.listings (mkListingId (st.listing_count + 1)) with
    | none => rfl
    | some l0 =>
      obtain ⟨k, hk1, hk2, hk3⟩ := inv3 _ l0 hM
      have := mkListingId_inj hk3
      omega
  refine ⟨?_, ?_, ?_⟩
  · intro inv' lid' hlook
    rw [hbi] at hlook
    rcases Store.get_insert_cases hlook with ⟨rfl, rfl⟩ | ⟨hne, hold⟩
    · refine ⟨listing, ?_, hact, hiv⟩
      rw [hl]
      exact Store.get_insert_self _ _ _
    · obtain ⟨l', hgl', hact', hiv'⟩ := inv1 _ _ hold
      have hne2 : lid' ≠ mkListingId (st.listing_count + 1) := by
        intro he
        rw [he, hfresh] at hgl'
        exact absurd hgl' (by simp)
      refine ⟨l', ?_, hact', hiv'⟩
      rw [hl, Store.get_insert_ne _ _ hne2]
      exact hgl'
  · intro lid' l' hgl' hact'
    rw [hl] at hgl'
    rcases Store.get_insert_cases hgl' with ⟨rfl, rfl⟩ | ⟨hne, hold⟩
    · rw [hbi, hiv]
      exact Store.get_insert_self _ _ _
    · have hne3 : l'.invoice_id ≠ invoice_id := by
        intro he
        have h1 := inv2 lid' l' hold hact'
        rw [he, hnone] at h1
        exact absurd h1 (by simp)
      rw [hbi, Store.get_insert_ne _ _ hne3]
      exact inv2 lid' l' hold hact'
  · intro lid' l' hgl'
    rw [hl] at hgl'
    rw [hc]
    rcases Store.get_insert_cases hgl' with ⟨rfl, rfl⟩ | ⟨hne, hold⟩
    · exact ⟨st.listing_count + 1, by omega, Nat.le_refl _, rfl⟩
    · obtain ⟨k, hk1, hk2, hk3⟩ := inv3 lid' l' hold
      exact ⟨k, hk1, by omega, hk3⟩

/-- Every successful marketplace step preserves the invariant. -/
theorem mk_step_preserves {st st' : MarketplaceState} (op : MarketplaceOp)
    (hinv : ListingInv st) (h : mk_step st op = .ok st') : ListingInv st' := by
  cases op with
  | listInvoice s i ap ia dd mp ea now =>
    obtain ⟨r, hr⟩ := Escrow.map_fst_ok h
    obtain ⟨hnone, listing, hact, hiv, hl, hbi, hc⟩ := list_invoice_shape hr
    exact list_preserves hnone hact hiv ⟨hinv.1, hinv.2.1, hinv.2.2⟩ hl hbi hc
  | onListCallback l res =>
    obtain ⟨r, hr⟩ := Escrow.map_fst_ok h
    unfold on_list_callback at hr
    cases res with
    | success =>
      simp only [Except.ok.injEq, Prod.mk.injEq] at hr
      rw [← hr.1]
      exact hinv
    | failure => exact absurd hr (by simp)
  | ftOnTransfer t s a m now =>
    obtain ⟨r, hr⟩ := Escrow.map_fst_ok h
    unfold ft_on_transfer at hr
    split at hr
    · exact absurd hr (by simp)
    split at hr
    · split at hr
      · obtain ⟨listing, hget, hact, hl, hbi, hc⟩ := process_usdc_purchase_shape hr
        exact deactivate_preserves hget hact ⟨hinv.1, hinv.2.1, hinv.2.2⟩ hl hbi hc
      · split at hr
        · exact absurd hr (by simp)
        · exact absurd hr (by simp)
    · exact absurd hr (by simp)
  | buyInvoice b l d now =>
    obtain ⟨r, hr⟩ := Escrow.map_fst_ok h
    obtain ⟨listing, hget, hact, hl, hbi, hc⟩ := buy_invoice_shape hr
    exact deactivate_preserves hget hact ⟨hinv.1, hinv.2.1, hinv.2.2⟩ hl hbi hc
  | cancelListing c l =>
    obtain ⟨r, hr⟩ := Escrow.map_fst_ok h
    obtain ⟨listing, hget, hact, hl, hbi, hc⟩ := cancel_listing_shape hr
    exact deactivate_preserves hget hact ⟨hinv.1, hinv.2.1, hinv.2.2⟩ hl hbi hc
  | acceptBid c l bi =>
    obtain ⟨r, hr⟩ := Escrow.map_fst_ok h
    obtain ⟨listing, hget, hact, hl, hbi, hc⟩ := accept_bid_shape hr
    exact deactivate_preserves hget hact ⟨hinv.1, hinv.2.1, hinv.2.2⟩ hl hbi hc
  | placeBid b l a d now =>
    obtain ⟨r, hr⟩ := Escrow.map_fst_ok h
    unfold place_bid at hr
    split at hr
    · exact absurd hr (by simp)
    split at hr
    · exact absurd hr (by simp)
    split at hr
    · exact absurd hr (by simp)
    split at hr
    · exact absurd hr (by simp)
    split at hr
    · exact absurd hr (by simp)
    simp only [Except.ok.injEq, Prod.mk.injEq] at hr
    rw [← hr.1]
    exact hinv
  | cancelBid c l bi =>
    replace h : cancel_bid st c l bi = Except.ok st' := h
    unfold cancel_bid at h
    split at h
    · exact absurd h (by simp)
    split at h
    · exact absurd h (by simp)
    split at h
    · exact absurd h (by simp)
    split at h
    · exact absurd h (by simp)
    split at h
    · exact absurd h (by simp)
    simp only [Except.ok.injEq] at h
    rw [← h]
    exact hinv
  | setFeeBasisPoints f =>
    replace h : set_fee_basis_points st f = Except.ok st' := h
    unfold set_fee_basis_points at h
    split at h
    · exact absurd h (by simp)
    simp only [Except.ok.injEq] at h
    rw [← h]
    exact hinv

/-- The invariant holds in every reachable marketplace state. -/
theorem listing_inv_reachable (st : MarketplaceState) (h : Reachable st) : ListingInv st := by
  induction h with
  | init a b c d =>
    refine ⟨?_, ?_, ?_⟩
    · intro a1 a2 hx
      simp [newMarketplaceContract, Store.get] at hx
    · intro a1 a2 hx
      simp [newMarketplaceContract, Store.get] at hx
    · intro a1 a2 hx
      simp [newMarketplaceContract, Store.get] at hx
  | step op hreach hstep ih => exact mk_step_preserves op ih hstep

/-- A live listing whose asking price far exceeds the 0.001 NEAR minimum
deposit `buy_invoice` checks. -/
def wLst : Listing :=
  { id := lstId1, invoice_id := invId1, seller := acctSeller,
    asking_price := 10 ^ 22, min_price := none, invoice_amount := 10 ^ 22,
    due_date := 1000, created_at := 0, expires_at := none, active := true }

/-- Marketplace state holding the live listing `wLst`. -/
def wMkSt : MarketplaceState :=
  { listings := [(lstId1, wLst)], listings_by_invoice := [(invId1, lstId1)],
    bids := [], listing_count := 1, bid_count := 0, invoice_contract := acctInvoice,
    escrow_contract := acctEscrow, usdc_contract := acctUsdc,
    fee_basis_points := 100, fee_recipient := acctAdmin }

/-- C3 fails on the code: `buy_invoice` accepts a payment (attached deposit of
0.001 NEAR) that is far below the asking price, so the two purchase variants
do not reject under the same conditions. -/
theorem c3_counterexample :
    millinearYocto < wLst.asking_price ∧
      (buy_invoice wMkSt acctBuyer lstId1 millinearYocto 0).isOk = true := by decide

/-- C3 as amended: for an existing listing, the two purchase variants share
the inactive/self-purchase/expiry guards — and reject with no state change
exactly when a guard fails — but their payment guards differ:
`process_usdc_purchase` (the fund-custody notification path) requires the
transferred amount to reach the asking price, while the direct-payment
`buy_invoice` only requires the attached deposit to reach 0.001 NEAR and
never compares it against the asking price. -/
theorem c3_amended_purchase_guards (st : MarketplaceState) (listing_id : String)
    (listing : Listing) (buyer : String) (payment attached_deposit now : Nat)
    (hget : Store.get st.listings listing_id = some listing) :
    ((process_usdc_purchase st buyer payment listing_id now).isOk = true ↔
      (listing.active = true ∧ listing.seller ≠ buyer ∧
        expired listing.expires_at now = false ∧ listing.asking_price ≤ payment)) ∧
    ((buy_invoice st buyer listing_id attached_deposit now).isOk = true ↔
      (listing.active = true ∧ listing.seller ≠ buyer ∧
        expired listing.expires_at now = false ∧ millinearYocto ≤ attached_deposit)) := by
  constructor
  · constructor
    · intro hout
      unfold process_usdc_purchase at hout
      split at hout
      next heq =>
        rw [hget] at heq
        exact absurd heq (by simp)
      next l0 heq =>
        rw [hget] at heq
        obtain rfl : listing = l0 := Option.some.inj heq
        split at hout
        next hact => simp [Except.isOk, Except.toBool] at hout
        next hact =>
          split at hout
          next hsell => simp [Except.isOk, Except.toBool] at hout
          next hsell =>
            split at hout
            next hexp => simp [Except.isOk, Except.toBool] at hout
            next hexp =>
              split at hout
              next hpay => simp [Except.isOk, Except.toBool] at hout
              next hpay =>
                exact ⟨by simpa using hact, hsell, by simpa using hexp, by omega⟩
    · rintro ⟨hact, hsell, hexp, hpay⟩
      simp [process_usdc_purchase, hget, hact, hsell, hexp, Nat.not_lt.mpr hpay,
        Except.isOk, Except.toBool]
  · constructor
    · intro hout
      unfold buy_invoice at hout
      split at hout
      next heq =>
        rw [hget] at heq
        exact absurd heq (by simp)
      next l0 heq =>
        rw [hget] at heq
        obtain rfl : listing = l0 := Option.some.inj heq
        split at hout
        next hact => simp [Except.isOk, Except.toBool] at hout
        next hact =>
          split at hout
          next hsell => simp [Except.isOk, Except.toBool] at hout
          next hsell =>
            split at hout
            next hexp => simp [Except.isOk, Except.toBool] at hout
            next hexp =>
              split at hout
              next hdep => simp [Except.isOk, Except.toBool] at hout
              next hdep =>
                exact ⟨by simpa using hact, hsell, by simpa using hexp, by omega⟩
    · rintro ⟨hact, hsell, hexp, hdep⟩
      simp [buy_invoice, hget, hact, hsell, hexp, Nat.not_lt.mpr hdep,
        Except.isOk, Except.toBool]

theorem c3_witness :
    (process_usdc_purchase wMkSt acctBuyer (10 ^ 22) lstId1 0).isOk = true :=
  (c3_amended_purchase_guards wMkSt lstId1 wLst acctBuyer (10 ^ 22) 0 0
    (by decide)).1.mpr (by decide)

/-- C9 fails on the code in its rollback conjunct: the list-confirmation
rollback removes nothing — `on_list_callback` on a failed confirmation
performs its two removals and then panics, so the whole call fails (no
post-state) and the listing and its lookup entry persist unchanged. -/
theorem c9_counterexample :
    on_list_callback wMkSt lstId1 CallbackResult.failure = .error MkErr.markListedFailed ∧
      Store.get wMkSt.listings_by_invoice invId1 = some lstId1 ∧
      Store.get wMkSt.listings lstId1 = some wLst := by decide

/-- C9 as amended: in every reachable marketplace state at most one active
listing exists per invoice id; `list_invoice` on an invoice that already has
a lookup entry fails with the validation error and changes nothing; the
purchase paths, bid acceptance and seller cancellation each deactivate the
listing and remove its lookup entry; the lookup entry exists exactly while
its listing is active; and the list-confirmation rollback removes nothing —
its failure branch errors with no state change, its deletions being reverted
by its own panic. -/
theorem c9_amended_unique_active_listing :
    (∀ st, Reachable st →
      (∀ lid1 lid2 l1 l2, Store.get st.listings lid1 = some l1 →
        Store.get st.listings lid2 = some l2 → l1.active = true → l2.active = true →
        l1.invoice_id = l2.invoice_id → lid1 = lid2) ∧
      (∀ invoice_id listing_id,
        Store.get st.listings_by_invoice invoice_id = some listing_id →
        ∃ l, Store.get st.listings listing_id = some l ∧ l.active = true ∧
          l.invoice_id = invoice_id) ∧
      (∀ listing_id l, Store.get st.listings listing_id = some l → l.active = true →
        Store.get st.listings_by_invoice l.invoice_id = some listing_id)) ∧
    (∀ st seller invoice_id ap ia dd mp ea now x,
      Store.get st.listings_by_invoice invoice_id = some x →
      list_invoice st seller invoice_id ap ia dd mp ea now =
        .error .invoiceAlreadyListed ∨ list_invoice st seller invoice_id ap ia dd mp ea now =
        .error .invalidAskingPrice ∨ list_invoice st seller invoice_id ap ia dd mp ea now =
        .error .askExceedsAmount) ∧
    (∀ st buyer payment lid now st' eff excess listing,
      process_usdc_purchase st buyer payment lid now = .ok (st', eff, excess) →
      Store.get st.listings lid = some listing →
      Store.get st'.listings_by_invoice listing.invoice_id = none ∧
      Store.get st'.listings lid = some { listing with active := false }) ∧
    (∀ st buyer lid dep now st' eff listing,
      buy_invoice st buyer lid dep now = .ok (st', eff) →
      Store.get st.listings lid = some listing →
      Store.get st'.listings_by_invoice listing.invoice_id = none ∧
      Store.get st'.listings lid = some { listing with active := false }) ∧
    (∀ st caller lid st' eff listing,
      cancel_listing st caller lid = .ok (st', eff) →
      Store.get st.listings lid = some listing →
      Store.get st'.listings_by_invoice listing.invoice_id = none ∧
      Store.get st'.listings lid = some { listing with active := false }) ∧
    (∀ st caller lid bid_id st' eff listing,
      accept_bid st caller lid bid_id = .ok (st', eff) →
      Store.get st.listings lid = some listing →
      Store.get st'.listings_by_invoice listing.invoice_id = none ∧
      Store.get st'.listings lid = some { listing with active := false }) ∧
    (∀ st lid, on_list_callback st lid CallbackResult.failure =
      .error .markListedFailed) := by
  refine ⟨?_, ?_, ?_, ?_, ?_, ?_, fun st lid => rfl⟩
  · intro st hreach
    obtain ⟨inv1, inv2, inv3⟩ := listing_inv_reachable st hreach
    refine ⟨?_, inv1, inv2⟩
    intro lid1 lid2 l1 l2 hg1 hg2 ha1 ha2 hiv
    have h1 := inv2 lid1 l1 hg1 ha1
    have h2 := inv2 lid2 l2 hg2 ha2
    rw [hiv] at h1
    exact Option.some.inj (h1.symm.trans h2)
  · intro st seller invoice_id ap ia dd mp ea now x hx
    unfold list_invoice
    split
    · exact Or.inr (Or.inl rfl)
    split
    · exact Or.inr (Or.inr rfl)
    split
    · exact Or.inl rfl
    next hnone => exact absurd (Option.not_isSome_iff_eq_none.mp hnone) (by simp [hx])
  · intro st buyer payment lid now st' eff excess listing h hget
    obtain ⟨listing0, hget0, hact0, hl, hbi, hc⟩ := process_usdc_purchase_shape h
    rw [hget] at hget0
    obtain rfl : listing = listing0 := Option.some.inj hget0
    constructor
    · rw [hbi]
      exact Store.get_remove_self _ _
    · rw [hl]
      exact Store.get_insert_self _ _ _
  · intro st buyer lid dep now st' eff listing h hget
    obtain ⟨listing0, hget0, hact0, hl, hbi, hc⟩ := buy_invoice_shape h
    rw [hget] at hget0
    obtain rfl : listing = listing0 := Option.some.inj hget0
    constructor
    · rw [hbi]
      exact Store.get_remove_self _ _
    · rw [hl]
      exact Store.get_insert_self _ _ _
  · intro st caller lid st' eff listing h hget
    obtain ⟨listing0, hget0, hact0, hl, hbi, hc⟩ := cancel_listing_shape h
    rw [hget] at hget0
    obtain rfl : listing = listing0 := Option.some.inj hget0
    constructor
    · rw [hbi]
      exact Store.get_remove_self _ _
    · rw [hl]
      exact Store.get_insert_self _ _ _
  · intro st caller lid bid_id st' eff listing h hget
    obtain ⟨listing0, hget0, hact0, hl, hbi, hc⟩ := accept_bid_shape h
    rw [hget] at hget0
    obtain rfl : listing = listing0 := Option.some.inj hget0
    constructor
    · rw [hbi]
      exact Store.get_remove_self _ _
    · rw [hl]
      exact Store.get_insert_self _ _ _

theorem c9_witness :
    list_invoice wMkSt acctSeller invId1 5 10 1000 none none 0 =
        .error MkErr.invoiceAlreadyListed ∨
      list_invoice wMkSt acctSeller invId1 5 10 1000 none none 0 =
        .error MkErr.invalidAskingPrice ∨
      list_invoice wMkSt acctSeller invId1 5 10 1000 none none 0 =
        .error MkErr.askExceedsAmount :=
  c9_amended_unique_active_listing.2.1 wMkSt acctSeller invId1 5 10 1000 none none 0
    lstId1 (by decide)

end Marketplace
